import Mathlib

/-!
AML-System: checkpointed incremental detection.

A shallow embedding of

* the multi-statement SQL script returned by `getAMLProcessingSQL`
  (`src/functions/aml-processor/main.go`), executed by `runAMLProcessing`;
* the change monitor `AMLMonitor.checkForNewData` (`src/cmd/monitor/main.go`);
* the number formatter `formatNumber` (`src/cmd/upload/main.go`).

Tables are lists of rows.  A `TIMESTAMP` is an integer number of microseconds
since the Unix epoch, a `DATE` an integer number of days since the Unix epoch
(UTC).  Each statement of the script sees its own `CURRENT_TIMESTAMP()`.
The `FLOAT64` column `amt` is carried as an integer amount; no statement
proved below depends on its arithmetic.  `INT64` columns are unbounded integers:
BigQuery raises an error on overflow, it does not wrap.  The checkpoint table may
hold any number of rows; the scalar subquery of the script fails on more than one
row of the process, as it does in BigQuery.
-/

namespace AML

/-! ## Time -/

abbrev Timestamp := Int
abbrev Date := Int

def microsPerSecond : Int := 1000000
def microsPerMinute : Int := 60000000
def microsPerDay : Int := 86400000000

/-- SQL `DATE(ts)`: the UTC calendar day of a timestamp. -/
def DATE (t : Timestamp) : Date := t / microsPerDay

/-- SQL `TIMESTAMP_DIFF(a, b, MINUTE)`: whole minutes elapsed from `b` to `a`. -/
def TIMESTAMP_DIFF_MINUTE (a b : Timestamp) : Int := Int.tdiv (a - b) microsPerMinute

/-- SQL `TIMESTAMP_DIFF(a, b, SECOND)`. -/
def TIMESTAMP_DIFF_SECOND (a b : Timestamp) : Int := Int.tdiv (a - b) microsPerSecond

/-- SQL `TIMESTAMP('2020-01-01 00:00:00')`. -/
def defaultWatermark : Timestamp := 1577836800000000

/-! ## Tables -/

/-- A row of `credit_card_transactions` (the columns the script reads). -/
structure Transaction where
  first : String
  last : String
  trans_date_trans_time : Timestamp
  amt : Int
  merchant : String
deriving DecidableEq, Repr

/-- A row of `processing_metadata`. -/
structure ProcessingMetadata where
  process_name : String
  last_processed_timestamp : Option Timestamp
  total_records_processed : Int
  last_run_date : Date
  status : String
  updated_at : Timestamp
  alerts_generated : Option Int
  processing_duration_seconds : Option Int
deriving DecidableEq, Repr

/-- A row of `aml_alerts_level1`. -/
structure Alert where
  alert_id : Int
  customer_id : String
  alert_date : Date
  alert_type : String
  risk_score : Int
  description : String
  priority : String
  total_amount : Int
  status : String
  detection_date : Date
  created_at : Timestamp
deriving DecidableEq, Repr

structure Database where
  credit_card_transactions : List Transaction
  processing_metadata : List ProcessingMetadata
  aml_alerts_level1 : List Alert
deriving DecidableEq, Repr

/-! ## The script of `getAMLProcessingSQL` -/

def processName : String := "aml_processing"

/-- The scalar subquery
`(SELECT last_processed_timestamp FROM processing_metadata WHERE process_name = 'aml_processing')`:
`NULL` on no row, the column on one row, a run-time error on several. -/
def lastProcessedSubquery (md : List ProcessingMetadata) : Except String (Option Timestamp) :=
  match md.filter (fun r => decide (r.process_name = processName)) with
  | [] => .ok none
  | [r] => .ok r.last_processed_timestamp
  | _ :: _ :: _ => .error "Scalar subquery produced more than one element"

/-- The checkpoint rows of the process: the rows the `MERGE` matches and the scalar subquery
reads. -/
def checkpointRows (md : List ProcessingMetadata) : List ProcessingMetadata :=
  md.filter (fun r => decide (r.process_name = processName))

/-- Rows with `trans_date_trans_time > COALESCE(wm, TIMESTAMP('2020-01-01 00:00:00'))`. -/
def newSince (txs : List Transaction) (wm : Option Timestamp) : List Transaction :=
  txs.filter (fun t => decide (t.trans_date_trans_time > wm.getD defaultWatermark))

/-- The `WHEN MATCHED THEN UPDATE SET ...` branch of the `MERGE`. -/
def mergeUpdate (now : Timestamp) (new_records_count : Int) (r : ProcessingMetadata) :
    ProcessingMetadata :=
  { r with
    last_processed_timestamp := some now
    total_records_processed := r.total_records_processed + new_records_count
    last_run_date := DATE now
    status := "PROCESSING"
    updated_at := now }

/-- The `WHEN NOT MATCHED THEN INSERT ...` branch of the `MERGE`. -/
def mergeInsert (now : Timestamp) (new_records_count : Int) : ProcessingMetadata :=
  { process_name := processName
    last_processed_timestamp := some now
    total_records_processed := new_records_count
    last_run_date := DATE now
    status := "PROCESSING"
    updated_at := now
    alerts_generated := none
    processing_duration_seconds := none }

/-- Statement 1: `MERGE processing_metadata ...`, run at `now`. -/
def mergeStatement (db : Database) (now : Timestamp) : Except String Database :=
  match lastProcessedSubquery db.processing_metadata with
  | .error e => .error e
  | .ok wm =>
    let new_records_count : Int := (newSince db.credit_card_transactions wm).length
    if db.processing_metadata.any (fun r => decide (r.process_name = processName)) then
      .ok { db with
            processing_metadata := db.processing_metadata.map (fun r =>
              if r.process_name = processName then mergeUpdate now new_records_count r else r) }
    else
      .ok { db with
            processing_metadata :=
              db.processing_metadata ++ [mergeInsert now new_records_count] }

/-- `CONCAT(first, '_', last)`. -/
def customer_id (t : Transaction) : String := t.first ++ "_" ++ t.last

/-- A row of the CTE `velocity_data`. -/
structure VelocityRow where
  customer_id : String
  trans_date_trans_time : Timestamp
  amt : Int
  merchant : String
  transaction_date : Date
  minutes_since_last : Option Int
deriving DecidableEq, Repr

/-- One window partition, already ordered by `trans_date_trans_time`:
`LAG(trans_date_trans_time)` is the previous row of the partition, `NULL` on the first. -/
def lagRows : Option Timestamp → List Transaction → List VelocityRow
  | _, [] => []
  | prev, t :: ts =>
    { customer_id := customer_id t
      trans_date_trans_time := t.trans_date_trans_time
      amt := t.amt
      merchant := t.merchant
      transaction_date := DATE t.trans_date_trans_time
      minutes_since_last := prev.map (fun p => TIMESTAMP_DIFF_MINUTE t.trans_date_trans_time p) }
      :: lagRows (some t.trans_date_trans_time) ts

/-- `ORDER BY trans_date_trans_time` inside a partition (ties keep table order). -/
def orderByTime (p : List Transaction) : List Transaction :=
  p.insertionSort (fun a b => a.trans_date_trans_time ≤ b.trans_date_trans_time)

/-- The CTE `velocity_data`, for the watermark `wm` read by the statement. -/
def velocity_data (txs : List Transaction) (wm : Option Timestamp) : List VelocityRow :=
  let scanned := newSince txs wm
  ((scanned.map customer_id).dedup).flatMap (fun c =>
    lagRows none (orderByTime (scanned.filter (fun t => decide (customer_id t = c)))))

/-- A row of the CTE `rapid_transactions`. -/
structure RapidTransactions where
  customer_id : String
  transaction_date : Date
  rapid_transaction_count : Int
  total_amount : Int
  min_time_diff : Option Int
deriving DecidableEq, Repr

/-- `minutes_since_last <= 5`; a `NULL` gap does not satisfy the comparison. -/
def isRapid (r : VelocityRow) : Bool :=
  match r.minutes_since_last with
  | none => false
  | some m => decide (m ≤ 5)

/-- SQL `MIN` / `MAX` over a column: `NULL` on no rows. -/
def sqlMIN : List Int → Option Int
  | [] => none
  | x :: xs => match sqlMIN xs with
    | none => some x
    | some m => some (min x m)

def sqlMAX : List Int → Option Int
  | [] => none
  | x :: xs => match sqlMAX xs with
    | none => some x
    | some m => some (max x m)

/-- The `WHERE` clause of `rapid_transactions`, `today` being `CURRENT_DATE()`. -/
def rapidWhere (today : Date) (vd : List VelocityRow) : List VelocityRow :=
  vd.filter (fun r => isRapid r && decide (r.transaction_date ≥ today - 1))

/-- The rows of one `GROUP BY customer_id, transaction_date` group. -/
def groupRows (rows : List VelocityRow) (k : String × Date) : List VelocityRow :=
  rows.filter (fun r => decide ((r.customer_id, r.transaction_date) = k))

/-- The aggregates of one group. -/
def aggregate (rows : List VelocityRow) (k : String × Date) : RapidTransactions :=
  { customer_id := k.1
    transaction_date := k.2
    rapid_transaction_count := (groupRows rows k).length
    total_amount := ((groupRows rows k).map (fun r => r.amt)).sum
    min_time_diff := sqlMIN ((groupRows rows k).filterMap (fun r => r.minutes_since_last)) }

/-- The CTE `rapid_transactions`. -/
def rapid_transactions (vd : List VelocityRow) (today : Date) : List RapidTransactions :=
  let rows := rapidWhere today vd
  (((rows.map (fun r => (r.customer_id, r.transaction_date))).dedup).map (aggregate rows)).filter
    (fun g => decide (g.rapid_transaction_count ≥ 5))

/-- Among the rows of one customer, the number of those of day `d` whose gap to the customer's
previous row is at most 5 whole minutes. -/
def rapidGapCount (rows : List VelocityRow) (d : Date) : Nat :=
  rows.countP (fun r => decide (r.transaction_date = d) && isRapid r)

/-- The scanned events of customer `c` in time order, each with the gap to the one before. -/
def customerRows (txs : List Transaction) (wm : Option Timestamp) (c : String) :
    List VelocityRow :=
  lagRows none (orderByTime ((newSince txs wm).filter (fun t => decide (customer_id t = c))))

/-- `ORDER BY rapid_transaction_count DESC` of the `ROW_NUMBER()` window. -/
def orderByCountDesc (gs : List RapidTransactions) : List RapidTransactions :=
  gs.insertionSort (fun a b => a.rapid_transaction_count ≥ b.rapid_transaction_count)

/-- `LEAST(GREATEST(rapid_transaction_count * 15, 60), 100)`. -/
def riskScore (c : Int) : Int := min (max (c * 15) 60) 100

/-- The `CASE` expression of the column `priority`. -/
def priorityOf (c : Int) : String :=
  if c ≥ 10 then "HIGH" else if c ≥ 7 then "MEDIUM" else "LOW"

/-- One row of the final `SELECT`, `rowNumber` being `ROW_NUMBER()`. -/
def alertRow (maxId : Int) (now : Timestamp) (rowNumber : Nat) (g : RapidTransactions) : Alert :=
  { alert_id := maxId + rowNumber
    customer_id := g.customer_id
    alert_date := g.transaction_date
    alert_type := "VELOCITY"
    risk_score := riskScore g.rapid_transaction_count
    description := "Rapid transactions detected: " ++ toString g.rapid_transaction_count
      ++ " transactions within 5 minutes"
    priority := priorityOf g.rapid_transaction_count
    total_amount := g.total_amount
    status := "OPEN"
    detection_date := DATE now
    created_at := now }

/-- Numbering of the ordered rows, starting at `n`. -/
def numberRows (maxId : Int) (now : Timestamp) : Nat → List RapidTransactions → List Alert
  | _, [] => []
  | n, g :: gs => alertRow maxId now n g :: numberRows maxId now (n + 1) gs

/-- `(SELECT IFNULL(MAX(alert_id), 0) FROM aml_alerts_level1)`. -/
def maxAlertId (alerts : List Alert) : Int :=
  (sqlMAX (alerts.map (fun a => a.alert_id))).getD 0

/-- The rows produced by the final `SELECT` of statement 2. -/
def velocityAlerts (alerts : List Alert) (rt : List RapidTransactions) (now : Timestamp) :
    List Alert :=
  numberRows (maxAlertId alerts) now 1 (orderByCountDesc rt)

/-- Statement 2: `INSERT INTO aml_alerts_level1 WITH ... SELECT ...`, run at `now`. -/
def insertStatement (db : Database) (now : Timestamp) : Except String Database :=
  match lastProcessedSubquery db.processing_metadata with
  | .error e => .error e
  | .ok wm =>
    let rt := rapid_transactions (velocity_data db.credit_card_transactions wm) (DATE now)
    .ok { db with
          aml_alerts_level1 := db.aml_alerts_level1 ++ velocityAlerts db.aml_alerts_level1 rt now }

/-- The `SET` clause of statement 3. -/
def finalUpdate (alerts : List Alert) (now : Timestamp) (r : ProcessingMetadata) :
    ProcessingMetadata :=
  { r with
    alerts_generated :=
      some ((alerts.filter (fun a => decide (DATE a.created_at = DATE now))).length : Int)
    status := "COMPLETED"
    processing_duration_seconds := some (TIMESTAMP_DIFF_SECOND now r.updated_at)
    updated_at := now }

/-- Statement 3: `UPDATE processing_metadata SET ... WHERE process_name = 'aml_processing'`. -/
def updateStatement (db : Database) (now : Timestamp) : Except String Database :=
  .ok { db with
        processing_metadata := db.processing_metadata.map (fun r =>
          if r.process_name = processName then finalUpdate db.aml_alerts_level1 now r else r) }

/-- The three statements of the script. -/
inductive Statement where
  | merge
  | insert
  | update
deriving DecidableEq, Repr

/-- `CURRENT_TIMESTAMP()` of each statement of one run of the script. -/
structure Clock where
  mergeTime : Timestamp
  insertTime : Timestamp
  updateTime : Timestamp
deriving DecidableEq, Repr

/-- One statement against the store; `rejected` is a failure of the store itself
(quota, unavailable table, cancelled job).  A failed statement changes nothing. -/
def execStatement (rejected : Bool) (stmt : Database → Timestamp → Except String Database)
    (db : Database) (now : Timestamp) : Except String Database :=
  if rejected then .error "statement failed" else stmt db now

/-- The script returned by `getAMLProcessingSQL`: the statements run in order, the script
has no transaction around them, so the first failing statement stops the script and what the
earlier statements wrote stays.  Returns the store afterwards and the script error, if any. -/
def getAMLProcessingSQL (db : Database) (clk : Clock) (rejected : Statement → Bool) :
    Database × Option String :=
  match execStatement (rejected .merge) mergeStatement db clk.mergeTime with
  | .error e => (db, some e)
  | .ok db1 =>
    match execStatement (rejected .insert) insertStatement db1 clk.insertTime with
    | .error e => (db1, some e)
    | .ok db2 =>
      match execStatement (rejected .update) updateStatement db2 clk.updateTime with
      | .error e => (db2, some e)
      | .ok db3 => (db3, none)

/-- The rows the `INSERT` of a run adds once the `MERGE` of the same run has succeeded:
the detection reads the watermark the `MERGE` has just written. -/
def passAlerts (db : Database) (clk : Clock) : List Alert :=
  velocityAlerts db.aml_alerts_level1
    (rapid_transactions (velocity_data db.credit_card_transactions (some clk.mergeTime))
      (DATE clk.insertTime)) clk.insertTime

/-- What the outside world decides during one call of `runAMLProcessing`. -/
structure JobEnv where
  clock : Clock
  startFails : Bool
  waitFails : Bool
  rejected : Statement → Bool

/-- `runAMLProcessing`: start the query job, wait for it, report its error.
`logProcessingResults` only reads. -/
def runAMLProcessing (db : Database) (env : JobEnv) : Database × Option String :=
  if env.startFails then (db, some "failed to start AML processing job")
  else
    let r := getAMLProcessingSQL db env.clock env.rejected
    if env.waitFails then (r.1, some "AML processing job failed")
    else
      match r.2 with
      | some e => (r.1, some ("AML processing completed with error: " ++ e))
      | none => (r.1, none)

/-- No statement is rejected by the store. -/
def noFault : Statement → Bool := fun _ => false

/-- A job that starts, is waited for, and meets no store failure. -/
def healthy (clk : Clock) : JobEnv :=
  { clock := clk, startFails := false, waitFails := false, rejected := noFault }

/-- The store with the status column of the checkpoint rows of the process set to `s`. -/
def withStatus (s : String) (db : Database) : Database :=
  { db with
    processing_metadata := db.processing_metadata.map (fun r =>
      if r.process_name = processName then { r with status := s } else r) }

/-- The watermark a reader of the checkpoint sees, when the read succeeds with a value. -/
def watermark (db : Database) : Option Timestamp :=
  match lastProcessedSubquery db.processing_metadata with
  | .ok (some t) => some t
  | _ => none

/-- One pass of a sequence: the transaction table as ingestion left it, and the job. -/
structure PassInput where
  transactions : List Transaction
  env : JobEnv

/-- Passes executed one after the other; each entry is the store after that pass and the
error it returned. -/
def passTrace : Database → List PassInput → List (Database × Option String)
  | _, [] => []
  | db, p :: ps =>
    let r := runAMLProcessing { db with credit_card_transactions := p.transactions } p.env
    r :: passTrace r.1 ps

/-- The store after a sequence of passes. -/
def runPasses : Database → List PassInput → Database
  | db, [] => db
  | db, p :: ps =>
    runPasses (runAMLProcessing { db with credit_card_transactions := p.transactions } p.env).1 ps

/-! ## The change monitor (`src/cmd/monitor/main.go`) -/

/-- Go `int64` wrap-around of an integer result. -/
def wrap64 (x : Int) : Int := (x + 9223372036854775808) % 18446744073709551616 - 9223372036854775808

/-- The fields of `AMLMonitor` that `checkForNewData` uses; `lastProcessed = none` is the zero
`time.Time`. -/
structure AMLMonitor where
  lastRowCount : Int
  lastProcessed : Option Timestamp
  running : Bool
deriving DecidableEq, Repr

/-- `NewAMLMonitor`: the zero values of the unset fields. -/
def NewAMLMonitor : AMLMonitor :=
  { lastRowCount := 0, lastProcessed := none, running := true }

/-- What the outside world answers during one call of `checkForNewData`:
the results of `getCurrentRowCount`, of `getLastProcessedTime`, and of
`triggerAMLProcessing` should it be called (`none` is a `nil` error). -/
structure Tick where
  getCurrentRowCount : Except String Int
  getLastProcessedTime : Except String (Option Timestamp)
  triggerAMLProcessing : Option String

/-- What one call of `checkForNewData` prints and calls, in order. -/
inductive MonitorEvent where
  | warnNoLastProcessed
  | initialState (rows : Int) (lastProcessed : Option Timestamp)
  | newDataDetected (newRows : Int) (total : Int)
  | dataReplaced (newCount : Int) (was : Int)
  | triggerAMLProcessing
  | triggerFailed (err : String)
  | processingCompletedNew
  | processingCompletedReplaced
  | noNewData (current : Int)
deriving DecidableEq, Repr

structure CheckResult where
  monitor : AMLMonitor
  events : List MonitorEvent
  err : Option String
deriving DecidableEq, Repr

/-- The handling of the result of `getLastProcessedTime` in `checkForNewData`: on an error a
warning is printed and the zero time is used. -/
def lastProcessedOrZero (x : Except String (Option Timestamp)) :
    Option Timestamp × List MonitorEvent :=
  match x with
  | .error _ => (none, [.warnNoLastProcessed])
  | .ok t => (t, [])

/-- `AMLMonitor.checkForNewData`. -/
def checkForNewData (m : AMLMonitor) (env : Tick) : CheckResult :=
  match env.getCurrentRowCount with
  | .error e => { monitor := m, events := [], err := some ("failed to get current row count: " ++ e) }
  | .ok currentRows =>
    let lp := lastProcessedOrZero env.getLastProcessedTime
    if m.lastRowCount = 0 then
      { monitor := { m with lastRowCount := currentRows, lastProcessed := lp.1 }
        events := lp.2 ++ [.initialState currentRows lp.1]
        err := none }
    else if currentRows > m.lastRowCount then
      let newRows := wrap64 (currentRows - m.lastRowCount)
      match env.triggerAMLProcessing with
      | some e =>
        { monitor := m
          events := lp.2 ++ [.newDataDetected newRows currentRows, .triggerAMLProcessing,
            .triggerFailed e]
          err := none }
      | none =>
        { monitor := { m with lastRowCount := currentRows }
          events := lp.2 ++ [.newDataDetected newRows currentRows, .triggerAMLProcessing,
            .processingCompletedNew]
          err := none }
    else if currentRows < m.lastRowCount then
      match env.triggerAMLProcessing with
      | some e =>
        { monitor := m
          events := lp.2 ++ [.dataReplaced currentRows m.lastRowCount, .triggerAMLProcessing,
            .triggerFailed e]
          err := none }
      | none =>
        { monitor := { m with lastRowCount := currentRows }
          events := lp.2 ++ [.dataReplaced currentRows m.lastRowCount, .triggerAMLProcessing,
            .processingCompletedReplaced]
          err := none }
    else
      { monitor := m, events := lp.2 ++ [.noNewData currentRows], err := none }

/-- Whether the call reached `triggerAMLProcessing`. -/
def triggered (r : CheckResult) : Bool :=
  r.events.contains .triggerAMLProcessing

/-! ## `formatNumber` (`src/cmd/upload/main.go`) -/

/-- Go `strconv.FormatInt(n, 10)`, as the list of its characters. -/
def FormatInt (n : Int) : List Char :=
  if n < 0 then '-' :: Nat.toDigits 10 n.natAbs else Nat.toDigits 10 n.natAbs

/-- The loop `for i, char := range str` of `formatNumber`, at index `i` with the characters
from `i` on still to visit; `len` is `len(str)`.  Returns what the loop appends to `result`. -/
def formatLoop (len : Nat) : Nat → List Char → List Char
  | _, [] => []
  | i, c :: cs =>
    (if i > 0 ∧ (len - i) % 3 = 0 then [','] else []) ++ c :: formatLoop len (i + 1) cs

/-- `formatNumber`. -/
def formatNumber (n : Int) : String :=
  if (FormatInt n).length ≤ 3 then String.mk (FormatInt n)
  else String.mk (formatLoop (FormatInt n).length 0 (FormatInt n))

/-! ## Events reduced to their timestamp -/

/-- A transaction row of which only the timestamp matters (day and gap of a `velocity_data`
row are functions of the timestamps of its partition). -/
def bareEvent (t : Timestamp) : Transaction :=
  { first := "", last := "", trans_date_trans_time := t, amt := 0, merchant := "" }

/-! ## A record set split in two by timestamp -/

/-- 2020-09-13 12:26:40 UTC. -/
def t0 : Timestamp := 1600000000000000

/-- A transaction of customer `A_B`, `m` minutes after `t0`. -/
def txAt (m : Int) : Transaction :=
  { first := "A", last := "B", trans_date_trans_time := t0 + m * microsPerMinute, amt := 10,
    merchant := "shop" }

/-- Six transactions of one customer, one minute apart. -/
def sixInARow : List Transaction := [txAt 0, txAt 1, txAt 2, txAt 3, txAt 4, txAt 5]

/-- Five transactions of one customer, one minute apart. -/
def fiveInARow : List Transaction := [txAt 0, txAt 1, txAt 2, txAt 3, txAt 4]

/-- A checkpoint row with the given status and watermark. -/
def checkpointRow (status : String) (wm : Timestamp) : ProcessingMetadata :=
  { process_name := processName
    last_processed_timestamp := some wm
    total_records_processed := 100
    last_run_date := DATE wm
    status := status
    updated_at := wm
    alerts_generated := some 0
    processing_duration_seconds := some 0 }

/-- A run whose three statements start at `t`, `t + 1s`, `t + 2s`. -/
def clockAt (t : Timestamp) : Clock :=
  { mergeTime := t, insertTime := t + microsPerSecond, updateTime := t + 2 * microsPerSecond }

/-- The six transactions, no checkpoint row yet, no alert. -/
def freshStore : Database :=
  { credit_card_transactions := sixInARow, processing_metadata := [], aml_alerts_level1 := [] }

/-- The six transactions, a checkpoint completed just before the first of them, no alert. -/
def completedStore : Database :=
  { credit_card_transactions := sixInARow
    processing_metadata := [checkpointRow "COMPLETED" (t0 - 1)]
    aml_alerts_level1 := [] }

/-- The six transactions, a checkpoint left in `PROCESSING` one hour before them. -/
def processingStore : Database :=
  { credit_card_transactions := sixInARow
    processing_metadata := [checkpointRow "PROCESSING" (t0 - 60 * microsPerMinute)]
    aml_alerts_level1 := [] }

/-- A healthy pass over `freshStore`, started ten minutes after `t0`. -/
def afterFirstPass : Database :=
  (runAMLProcessing freshStore (healthy (clockAt (t0 + 10 * microsPerMinute)))).1

/-- A healthy pass over `freshStore`, started ten minutes before `t0`: the six
transactions are future-dated for it. -/
def afterEarlyPass : Database :=
  (runAMLProcessing freshStore (healthy (clockAt (t0 - 10 * microsPerMinute)))).1

/-- A job whose alert `INSERT` is rejected by the store. -/
def insertFails (clk : Clock) : JobEnv :=
  { clock := clk, startFails := false, waitFails := false,
    rejected := fun s => decide (s = Statement.insert) }

/-- The store `completedStore` once the `MERGE` of a pass started ten minutes after `t0` has
run. -/
def mergedStore : Database :=
  { credit_card_transactions := sixInARow
    processing_metadata :=
      [{ process_name := processName
         last_processed_timestamp := some (t0 + 10 * microsPerMinute)
         total_records_processed := 106
         last_run_date := DATE (t0 + 10 * microsPerMinute)
         status := "PROCESSING"
         updated_at := t0 + 10 * microsPerMinute
         alerts_generated := some 0
         processing_duration_seconds := some 0 }]
    aml_alerts_level1 := [] }

/-- Two healthy passes over the six transactions, ten and twenty minutes after `t0`. -/
def twoPasses : List PassInput :=
  [{ transactions := sixInARow, env := healthy (clockAt (t0 + 10 * microsPerMinute)) },
   { transactions := sixInARow, env := healthy (clockAt (t0 + 20 * microsPerMinute)) }]

/-- An observation of `n` rows during which a triggered pass would succeed. -/
def tickOk (n : Int) : Tick :=
  { getCurrentRowCount := .ok n, getLastProcessedTime := .ok none, triggerAMLProcessing := none }

/-- An observation of `n` rows during which a triggered pass would fail. -/
def tickFailing (n : Int) : Tick :=
  { getCurrentRowCount := .ok n, getLastProcessedTime := .ok none,
    triggerAMLProcessing := some "AML processing job failed" }

/-- A monitor just created that recorded a baseline of 100 rows and then observed the table
emptied, the triggered pass succeeding. -/
def afterShrinkToZero : AMLMonitor :=
  (checkForNewData (checkForNewData NewAMLMonitor (tickOk 100)).monitor (tickOk 0)).monitor

/-- Five transactions one minute apart, no checkpoint row yet, no alert. -/
def fiveStore : Database :=
  { credit_card_transactions := fiveInARow, processing_metadata := [], aml_alerts_level1 := [] }

/-- A run whose `MERGE` starts just before `t0` and whose `INSERT` starts ten minutes after
`t0`. -/
def slowClock : Clock :=
  { mergeTime := t0 - 1, insertTime := t0 + 10 * microsPerMinute,
    updateTime := t0 + 11 * microsPerMinute }

/-- Six transactions of one customer at minute offsets 0, 2, 4, 5, 7, 9 from `t0`. -/
def scenarioA : List Transaction := [txAt 0, txAt 2, txAt 4, txAt 5, txAt 7, txAt 9]

/-- The transactions of `scenarioA`, no checkpoint row yet, no alert. -/
def scenarioStore : Database :=
  { credit_card_transactions := scenarioA, processing_metadata := [], aml_alerts_level1 := [] }

theorem checkpointRows_map_update (g : ProcessingMetadata → ProcessingMetadata)
    (hg : ∀ r, (g r).process_name = r.process_name) (md : List ProcessingMetadata) :
    checkpointRows (md.map (fun r => if r.process_name = processName then g r else r))
      = (checkpointRows md).map g := by
  induction md with
  | nil => rfl
  | cons r rs ih =>
    unfold checkpointRows at ih ⊢
    by_cases h : r.process_name = processName
    · simp [List.filter_cons, h, hg, ih]
    · simp [List.filter_cons, h, ih]

theorem lastProcessedSubquery_of_rows {md : List ProcessingMetadata} {r : ProcessingMetadata}
    (h : checkpointRows md = [r]) :
    lastProcessedSubquery md = .ok r.last_processed_timestamp := by
  unfold checkpointRows at h
  simp [lastProcessedSubquery, h]

theorem lastProcessedSubquery_ok_cases {md : List ProcessingMetadata} {wm : Option Timestamp}
    (h : lastProcessedSubquery md = .ok wm) :
    (checkpointRows md = [] ∧ wm = none) ∨
      ∃ r, checkpointRows md = [r] ∧ wm = r.last_processed_timestamp := by
  unfold lastProcessedSubquery at h
  unfold checkpointRows
  split at h
  · next h0 => left; exact ⟨h0, by cases h; rfl⟩
  · next r h1 => right; exact ⟨r, h1, by cases h; rfl⟩
  · cases h

theorem any_eq_false_of_rows_nil {md : List ProcessingMetadata} (h : checkpointRows md = []) :
    md.any (fun r => decide (r.process_name = processName)) = false := by
  unfold checkpointRows at h
  rw [List.filter_eq_nil_iff] at h
  simp only [List.any_eq_false]
  exact h

theorem any_eq_true_of_rows_cons {md : List ProcessingMetadata} {r : ProcessingMetadata}
    {rs : List ProcessingMetadata} (h : checkpointRows md = r :: rs) :
    md.any (fun r => decide (r.process_name = processName)) = true := by
  unfold checkpointRows at h
  have hr : r ∈ md.filter (fun r => decide (r.process_name = processName)) := by
    rw [h]; exact List.mem_cons_self _ _
  rw [List.mem_filter] at hr
  simp only [List.any_eq_true]
  exact ⟨r, hr.1, hr.2⟩

/-- What a `MERGE` that succeeds leaves: the other tables untouched, exactly one checkpoint
row, holding the statement's time as watermark and status `PROCESSING`. -/
theorem mergeStatement_ok {db db1 : Database} {now : Timestamp}
    (h : mergeStatement db now = .ok db1) :
    db1.credit_card_transactions = db.credit_card_transactions ∧
    db1.aml_alerts_level1 = db.aml_alerts_level1 ∧
    ∃ r, checkpointRows db1.processing_metadata = [r] ∧
      r.last_processed_timestamp = some now ∧ r.status = "PROCESSING" ∧ r.updated_at = now := by
  unfold mergeStatement at h
  cases hq : lastProcessedSubquery db.processing_metadata with
  | error e => rw [hq] at h; cases h
  | ok wm =>
    rw [hq] at h
    rcases lastProcessedSubquery_ok_cases hq with ⟨h0, _⟩ | ⟨r, h1, _⟩
    · simp only [any_eq_false_of_rows_nil h0] at h
      cases h
      refine ⟨rfl, rfl, mergeInsert now (newSince db.credit_card_transactions wm).length,
        ?_, rfl, rfl, rfl⟩
      unfold checkpointRows at h0 ⊢
      simp [List.filter_append, h0, mergeInsert]
    · simp only [any_eq_true_of_rows_cons h1] at h
      cases h
      refine ⟨rfl, rfl, mergeUpdate now (newSince db.credit_card_transactions wm).length r,
        ?_, rfl, rfl, rfl⟩
      simp only []
      rw [checkpointRows_map_update (mergeUpdate now _) (fun _ => rfl), h1]
      rfl

theorem mergeStatement_error {db : Database} {now : Timestamp} {e : String}
    (h : lastProcessedSubquery db.processing_metadata = .error e) :
    mergeStatement db now = .error e := by
  unfold mergeStatement; rw [h]

theorem mergeStatement_isOk {db : Database} (now : Timestamp) {wm : Option Timestamp}
    (h : lastProcessedSubquery db.processing_metadata = .ok wm) :
    ∃ db1, mergeStatement db now = .ok db1 := by
  unfold mergeStatement; rw [h]
  simp only []
  split
  · exact ⟨_, rfl⟩
  · exact ⟨_, rfl⟩

theorem insertStatement_of_subquery {db : Database} {now : Timestamp} {wm : Option Timestamp}
    (h : lastProcessedSubquery db.processing_metadata = .ok wm) :
    insertStatement db now = .ok { db with
      aml_alerts_level1 := db.aml_alerts_level1 ++ velocityAlerts db.aml_alerts_level1
        (rapid_transactions (velocity_data db.credit_card_transactions wm) (DATE now)) now } := by
  unfold insertStatement; rw [h]

theorem checkpointRows_updateStatement (db : Database) (now : Timestamp) :
    ∃ db3, updateStatement db now = .ok db3 ∧
      db3.credit_card_transactions = db.credit_card_transactions ∧
      db3.aml_alerts_level1 = db.aml_alerts_level1 ∧
      checkpointRows db3.processing_metadata
        = (checkpointRows db.processing_metadata).map (finalUpdate db.aml_alerts_level1 now) := by
  refine ⟨_, rfl, rfl, rfl, ?_⟩
  exact checkpointRows_map_update (finalUpdate db.aml_alerts_level1 now) (fun _ => rfl) _

/-! ## Lemmas on the detection query -/

theorem newSince_eq_nil {txs : List Transaction} {w : Timestamp}
    (h : ∀ t ∈ txs, t.trans_date_trans_time ≤ w) : newSince txs (some w) = [] := by
  unfold newSince
  rw [List.filter_eq_nil_iff]
  intro t ht
  have := h t ht
  simp only [Option.getD_some, gt_iff_lt, decide_eq_true_eq, not_lt]
  exact this

theorem velocity_data_of_newSince_nil {txs : List Transaction} {wm : Option Timestamp}
    (h : newSince txs wm = []) : velocity_data txs wm = [] := by
  unfold velocity_data
  simp [h]

theorem rapid_transactions_nil (today : Date) : rapid_transactions [] today = [] := by
  simp [rapid_transactions, rapidWhere]

theorem velocityAlerts_nil (alerts : List Alert) (now : Timestamp) :
    velocityAlerts alerts [] now = [] := by
  simp [velocityAlerts, orderByCountDesc, numberRows]

/-! ## Lemmas on the numbering of alerts -/

theorem numberRows_length (maxId : Int) (now : Timestamp) (gs : List RapidTransactions) (n : Nat) :
    (numberRows maxId now n gs).length = gs.length := by
  induction gs generalizing n with
  | nil => rfl
  | cons g gs ih => simp [numberRows, ih]

theorem numberRows_ids (maxId : Int) (now : Timestamp) (gs : List RapidTransactions) (n : Nat) :
    (numberRows maxId now n gs).map (fun a => a.alert_id)
      = (List.range gs.length).map (fun i => maxId + ((n + i : Nat) : Int)) := by
  induction gs generalizing n with
  | nil => rfl
  | cons g gs ih =>
    simp only [numberRows, List.map_cons, List.length_cons, List.range_succ_eq_map, ih,
      List.map_map]
    refine congrArg₂ _ ?_ ?_
    · simp [alertRow]
    · apply List.map_congr_left
      intro i _
      simp only [Function.comp]
      congr 2
      omega

theorem le_of_sqlMAX {xs : List Int} {m : Int} (h : sqlMAX xs = some m) : ∀ x ∈ xs, x ≤ m := by
  induction xs generalizing m with
  | nil => intro x hx; cases hx
  | cons y ys ih =>
    intro x hx
    unfold sqlMAX at h
    cases hm : sqlMAX ys with
    | none =>
      rw [hm] at h
      cases ys with
      | nil =>
        simp only [List.mem_singleton] at hx
        cases h; omega
      | cons z zs =>
        unfold sqlMAX at hm
        split at hm <;> cases hm
    | some k =>
      rw [hm] at h
      simp only [Option.some.injEq] at h
      rcases List.mem_cons.mp hx with rfl | hx
      · omega
      · have := ih hm x hx
        omega

theorem le_maxAlertId {alerts : List Alert} {a : Alert} (h : a ∈ alerts) :
    a.alert_id ≤ maxAlertId alerts := by
  unfold maxAlertId
  cases hm : sqlMAX (alerts.map (fun a => a.alert_id)) with
  | none =>
    cases alerts with
    | nil => cases h
    | cons b bs =>
      simp only [List.map_cons] at hm
      unfold sqlMAX at hm
      split at hm <;> cases hm
  | some m =>
    exact le_of_sqlMAX hm _ (List.mem_map_of_mem _ h)

/-! ## Lemmas on one run of the script -/

theorem script_merge_error {db : Database} {clk : Clock} {rej : Statement → Bool} {e : String}
    (h : execStatement (rej .merge) mergeStatement db clk.mergeTime = .error e) :
    getAMLProcessingSQL db clk rej = (db, some e) := by
  unfold getAMLProcessingSQL; rw [h]

theorem insertStatement_after_merge {db db1 : Database} {clk : Clock}
    (h : mergeStatement db clk.mergeTime = .ok db1) :
    insertStatement db1 clk.insertTime
      = .ok { db1 with aml_alerts_level1 := db.aml_alerts_level1 ++ passAlerts db clk } := by
  obtain ⟨htx, hal, r, hr, hwm, -, -⟩ := mergeStatement_ok h
  have hq := lastProcessedSubquery_of_rows hr
  rw [hwm] at hq
  rw [insertStatement_of_subquery hq, htx, hal]
  rfl

theorem script_insert_rejected {db db1 : Database} {clk : Clock} {rej : Statement → Bool}
    (hm : rej .merge = false) (hi : rej .insert = true)
    (h : mergeStatement db clk.mergeTime = .ok db1) :
    getAMLProcessingSQL db clk rej = (db1, some "statement failed") := by
  unfold getAMLProcessingSQL execStatement
  simp [hm, hi, h]

theorem script_update_rejected {db db1 : Database} {clk : Clock} {rej : Statement → Bool}
    (hm : rej .merge = false) (hi : rej .insert = false) (hu : rej .update = true)
    (h : mergeStatement db clk.mergeTime = .ok db1) :
    getAMLProcessingSQL db clk rej
      = ({ db1 with aml_alerts_level1 := db.aml_alerts_level1 ++ passAlerts db clk },
          some "statement failed") := by
  unfold getAMLProcessingSQL execStatement
  simp [hm, hi, hu, h, insertStatement_after_merge h]

theorem script_completed {db db1 : Database} {clk : Clock} {rej : Statement → Bool}
    (hm : rej .merge = false) (hi : rej .insert = false) (hu : rej .update = false)
    (h : mergeStatement db clk.mergeTime = .ok db1) :
    getAMLProcessingSQL db clk rej
      = ({ db1 with
            aml_alerts_level1 := db.aml_alerts_level1 ++ passAlerts db clk
            processing_metadata := db1.processing_metadata.map (fun r =>
              if r.process_name = processName then
                finalUpdate (db.aml_alerts_level1 ++ passAlerts db clk) clk.updateTime r
              else r) }, none) := by
  unfold getAMLProcessingSQL execStatement
  simp [hm, hi, hu, h, insertStatement_after_merge h, updateStatement]

/-- A run of the script that reports no error went through all three statements. -/
theorem script_no_error {db db3 : Database} {clk : Clock} {rej : Statement → Bool}
    (h : getAMLProcessingSQL db clk rej = (db3, none)) :
    rej .merge = false ∧ rej .insert = false ∧ rej .update = false ∧
      ∃ db1, mergeStatement db clk.mergeTime = .ok db1 := by
  unfold getAMLProcessingSQL execStatement at h
  cases hm : rej .merge <;> cases hi : rej .insert <;> cases hu : rej .update <;>
    simp only [hm, hi, hu, if_true, if_false, Bool.false_eq_true] at h
  all_goals
    cases hms : mergeStatement db clk.mergeTime with
    | error e => simp [hms] at h
    | ok db1 =>
      first
        | exact ⟨rfl, rfl, rfl, db1, rfl⟩
        | (simp [hms, insertStatement_after_merge hms] at h)

/-- What a run of the script without error leaves behind. -/
theorem script_no_error_state {db db3 : Database} {clk : Clock} {rej : Statement → Bool}
    (h : getAMLProcessingSQL db clk rej = (db3, none)) :
    db3.credit_card_transactions = db.credit_card_transactions ∧
    db3.aml_alerts_level1 = db.aml_alerts_level1 ++ passAlerts db clk ∧
    ∃ r, checkpointRows db3.processing_metadata = [r] ∧
      r.last_processed_timestamp = some clk.mergeTime ∧ r.status = "COMPLETED" := by
  obtain ⟨hm, hi, hu, db1, hms⟩ := script_no_error h
  rw [script_completed hm hi hu hms] at h
  obtain ⟨htx, -, r, hr, hwm, -, -⟩ := mergeStatement_ok hms
  cases h
  refine ⟨htx, rfl, finalUpdate (db.aml_alerts_level1 ++ passAlerts db clk) clk.updateTime r,
    ?_, hwm, rfl⟩
  simp only []
  rw [checkpointRows_map_update
    (finalUpdate (db.aml_alerts_level1 ++ passAlerts db clk) clk.updateTime) (fun _ => rfl), hr]
  rfl

/-- A run on a table with at most one checkpoint row and no store failure reports no error. -/
theorem script_succeeds {db : Database} (clk : Clock) {wm : Option Timestamp}
    (h : lastProcessedSubquery db.processing_metadata = .ok wm) :
    ∃ db3, getAMLProcessingSQL db clk noFault = (db3, none) := by
  obtain ⟨db1, hms⟩ := mergeStatement_isOk clk.mergeTime h
  exact ⟨_, script_completed rfl rfl rfl hms⟩

theorem runAMLProcessing_healthy (db : Database) (clk : Clock) :
    runAMLProcessing db (healthy clk) =
      ((getAMLProcessingSQL db clk noFault).1,
        (getAMLProcessingSQL db clk noFault).2.map
          (fun e => "AML processing completed with error: " ++ e)) := by
  unfold runAMLProcessing healthy
  simp only [Bool.false_eq_true, if_false]
  cases (getAMLProcessingSQL db clk noFault).2 <;> rfl

theorem runAMLProcessing_no_error {db db2 : Database} {env : JobEnv}
    (h : runAMLProcessing db env = (db2, none)) :
    getAMLProcessingSQL db env.clock env.rejected = (db2, none) := by
  unfold runAMLProcessing at h
  cases hs : env.startFails <;> cases hw : env.waitFails <;>
    simp only [hs, hw, if_true, if_false, Bool.false_eq_true] at h
  · cases hr : (getAMLProcessingSQL db env.clock env.rejected).2 with
    | some e => rw [hr] at h; cases h
    | none =>
      rw [hr] at h
      simp only [Prod.mk.injEq, and_true] at h
      exact Prod.ext h hr
  · cases h
  · cases h
  · cases h

theorem watermark_of_rows {db : Database} {r : ProcessingMetadata} {t : Timestamp}
    (h : checkpointRows db.processing_metadata = [r]) (ht : r.last_processed_timestamp = some t) :
    watermark db = some t := by
  unfold watermark
  rw [lastProcessedSubquery_of_rows h, ht]

/-! ## Lemmas on alert identifiers -/

theorem script_alerts (db : Database) (clk : Clock) (rej : Statement → Bool) :
    (getAMLProcessingSQL db clk rej).1.aml_alerts_level1 = db.aml_alerts_level1 ∨
    (getAMLProcessingSQL db clk rej).1.aml_alerts_level1
      = db.aml_alerts_level1 ++ passAlerts db clk := by
  cases hm : rej .merge
  · cases hms : mergeStatement db clk.mergeTime with
    | error e =>
      left
      rw [script_merge_error (e := e) (by simp [execStatement, hm, hms])]
    | ok db1 =>
      have hal := (mergeStatement_ok hms).2.1
      cases hi : rej .insert
      · cases hu : rej .update
        · right; rw [script_completed hm hi hu hms]
        · right; rw [script_update_rejected hm hi hu hms]
      · left; rw [script_insert_rejected hm hi hms]; exact hal
  · left
    rw [script_merge_error (e := "statement failed") (by simp [execStatement, hm])]

theorem runAMLProcessing_alerts (db : Database) (env : JobEnv) :
    (runAMLProcessing db env).1.aml_alerts_level1 = db.aml_alerts_level1 ∨
    (runAMLProcessing db env).1.aml_alerts_level1
      = db.aml_alerts_level1 ++ passAlerts db env.clock := by
  unfold runAMLProcessing
  cases hs : env.startFails
  · simp only [Bool.false_eq_true, if_false]
    have h := script_alerts db env.clock env.rejected
    cases hw : env.waitFails
    · simp only [Bool.false_eq_true, if_false]
      cases hr : (getAMLProcessingSQL db env.clock env.rejected).2 <;> exact h
    · exact h
  · left; rfl

theorem passAlerts_ids (db : Database) (clk : Clock) :
    (passAlerts db clk).map (fun a => a.alert_id)
      = (List.range (passAlerts db clk).length).map
          (fun (i : Nat) => maxAlertId db.aml_alerts_level1 + 1 + (i : Int)) := by
  unfold passAlerts velocityAlerts
  rw [numberRows_ids, numberRows_length]
  apply List.map_congr_left
  intro i _
  push_cast
  ring

theorem dense_ids_increasing (m : Int) (k : Nat) :
    ((List.range k).map (fun (i : Nat) => m + 1 + (i : Int))).Pairwise (· < ·) := by
  rw [List.pairwise_map]
  refine (List.pairwise_lt_range k).imp ?_
  intro a b hab
  omega

theorem dense_ids_gt {m : Int} {k : Nat} {x : Int}
    (h : x ∈ (List.range k).map (fun (i : Nat) => m + 1 + (i : Int))) : m < x := by
  obtain ⟨i, -, rfl⟩ := List.mem_map.mp h
  omega

/-- What one call of `runAMLProcessing` appends to the alert table, whatever its outcome. -/
theorem runAMLProcessing_written (db : Database) (env : JobEnv) :
    ∃ written : List Alert,
      (runAMLProcessing db env).1.aml_alerts_level1 = db.aml_alerts_level1 ++ written ∧
      written.map (fun a => a.alert_id)
        = (List.range written.length).map
            (fun (i : Nat) => maxAlertId db.aml_alerts_level1 + 1 + (i : Int)) := by
  rcases runAMLProcessing_alerts db env with h | h
  · exact ⟨[], by rw [h, List.append_nil], rfl⟩
  · exact ⟨passAlerts db env.clock, h, passAlerts_ids db env.clock⟩

theorem runPasses_written (ps : List PassInput) : ∀ db : Database,
    ∃ written : List Alert,
      (runPasses db ps).aml_alerts_level1 = db.aml_alerts_level1 ++ written ∧
      (written.map (fun a => a.alert_id)).Pairwise (· < ·) ∧
      ∀ a ∈ db.aml_alerts_level1, ∀ w ∈ written, a.alert_id < w.alert_id := by
  induction ps with
  | nil =>
    intro db
    exact ⟨[], by simp [runPasses], List.Pairwise.nil, fun _ _ w hw => by cases hw⟩
  | cons p ps ih =>
    intro db
    obtain ⟨w1, h1, hid1⟩ :=
      runAMLProcessing_written { db with credit_card_transactions := p.transactions } p.env
    obtain ⟨w2, h2, hsorted2, hgt2⟩ := ih
      (runAMLProcessing { db with credit_card_transactions := p.transactions } p.env).1
    have hgt1 : ∀ a ∈ db.aml_alerts_level1, ∀ w ∈ w1, a.alert_id < w.alert_id := by
      intro a ha w hw
      have hmem : w.alert_id ∈ w1.map (fun a => a.alert_id) := List.mem_map_of_mem _ hw
      rw [hid1] at hmem
      have := dense_ids_gt hmem
      have := le_maxAlertId ha
      simp only [] at *
      omega
    refine ⟨w1 ++ w2, ?_, ?_, ?_⟩
    · simp only [runPasses]
      rw [h2, h1, List.append_assoc]
    · rw [List.map_append, List.pairwise_append]
      refine ⟨by rw [hid1]; exact dense_ids_increasing _ _, hsorted2, ?_⟩
      intro x hx y hy
      obtain ⟨a, ha, rfl⟩ := List.mem_map.mp hx
      obtain ⟨b, hb, rfl⟩ := List.mem_map.mp hy
      exact hgt2 a (by rw [h1]; exact List.mem_append_right _ ha) b hb
    · intro a ha w hw
      rcases List.mem_append.mp hw with hw | hw
      · exact hgt1 a ha w hw
      · exact hgt2 a (by rw [h1]; exact List.mem_append_left _ ha) w hw

/-! ## The checkpoint status is not read -/

theorem mergeStatement_withStatus (s : String) (db : Database) (now : Timestamp) {wm : Option Timestamp}
    (hq : lastProcessedSubquery db.processing_metadata = .ok wm) :
    mergeStatement (withStatus s db) now = mergeStatement db now := by
  have hrows : checkpointRows (withStatus s db).processing_metadata
      = (checkpointRows db.processing_metadata).map (fun r => { r with status := s }) :=
    checkpointRows_map_update (fun r => { r with status := s }) (fun _ => rfl) _
  have hq2 : lastProcessedSubquery (withStatus s db).processing_metadata = .ok wm := by
    rcases lastProcessedSubquery_ok_cases hq with ⟨h0, rfl⟩ | ⟨r, h1, rfl⟩
    · rw [h0] at hrows
      unfold lastProcessedSubquery
      unfold checkpointRows at hrows
      rw [hrows]; rfl
    · rw [h1] at hrows
      exact lastProcessedSubquery_of_rows (r := { r with status := s }) hrows
  unfold mergeStatement
  rw [hq, hq2]
  rcases lastProcessedSubquery_ok_cases hq with ⟨h0, -⟩ | ⟨r, h1, -⟩
  · have hnone : ∀ r ∈ db.processing_metadata, ¬ r.process_name = processName := by
      unfold checkpointRows at h0
      rw [List.filter_eq_nil_iff] at h0
      intro r hr; simpa using h0 r hr
    have hsame : (withStatus s db).processing_metadata = db.processing_metadata := by
      unfold withStatus
      simp only []
      conv_rhs => rw [← List.map_id db.processing_metadata]
      apply List.map_congr_left
      intro r hr
      simp [hnone r hr]
    simp only [hsame]
    rfl
  · have hany1 := any_eq_true_of_rows_cons h1
    have hany2 : (withStatus s db).processing_metadata.any
        (fun r => decide (r.process_name = processName)) = true := by
      rw [h1] at hrows
      exact @any_eq_true_of_rows_cons _ { r with status := s } [] hrows
    simp only [hany1, hany2, if_true]
    congr 1
    unfold withStatus
    simp only [List.map_map]
    congr 1
    apply List.map_congr_left
    intro r _
    by_cases h : r.process_name = processName
    · simp [h, mergeUpdate]
    · simp [h]

theorem getAMLProcessingSQL_withStatus (s : String) (db : Database) (clk : Clock)
    {wm : Option Timestamp} (hq : lastProcessedSubquery db.processing_metadata = .ok wm) :
    getAMLProcessingSQL (withStatus s db) clk noFault = getAMLProcessingSQL db clk noFault := by
  obtain ⟨db1, hms⟩ := mergeStatement_isOk clk.mergeTime hq
  have hms2 : mergeStatement (withStatus s db) clk.mergeTime = .ok db1 := by
    rw [mergeStatement_withStatus s db clk.mergeTime hq, hms]
  rw [script_completed rfl rfl rfl hms, script_completed rfl rfl rfl hms2]
  rfl

/-! ## Lemmas on sequences of passes -/

theorem watermark_after_success {db db2 : Database} {env : JobEnv}
    (h : runAMLProcessing db env = (db2, none)) : watermark db2 = some env.clock.mergeTime := by
  obtain ⟨-, -, r, hr, hwm, -⟩ := script_no_error_state (runAMLProcessing_no_error h)
  exact watermark_of_rows hr hwm

theorem passTrace_watermarks (ps : List PassInput) : ∀ db : Database,
    (∀ r ∈ passTrace db ps, r.2 = none) →
    (passTrace db ps).map (fun r => watermark r.1)
      = ps.map (fun p => some p.env.clock.mergeTime) := by
  induction ps with
  | nil => intro db _; rfl
  | cons p ps ih =>
    intro db hok
    simp only [passTrace, List.map_cons]
    simp only [passTrace, List.mem_cons, forall_eq_or_imp] at hok
    rw [ih _ hok.2, watermark_after_success (Prod.ext rfl hok.1)]

/-! ## Lemmas on the monitor -/

theorem triggered_append (es fs : List MonitorEvent) :
    (es ++ fs).contains MonitorEvent.triggerAMLProcessing
      = (es.contains MonitorEvent.triggerAMLProcessing
          || fs.contains MonitorEvent.triggerAMLProcessing) := by
  simp [List.contains_eq_any_beq, List.any_append]

theorem lastProcessed_events_not_trigger (x : Except String (Option Timestamp)) :
    (lastProcessedOrZero x).2.contains MonitorEvent.triggerAMLProcessing = false := by
  cases x <;> simp [lastProcessedOrZero]

/-- What `checkForNewData` does once `lastRowCount` is not `0` and the count query answers
with a count different from it. -/
theorem checkForNewData_changed (m : AMLMonitor) (env : Tick) (c : Int)
    (hbase : m.lastRowCount ≠ 0) (hcount : env.getCurrentRowCount = .ok c)
    (hne : c ≠ m.lastRowCount) :
    triggered (checkForNewData m env) = true ∧ (checkForNewData m env).err = none ∧
    (env.triggerAMLProcessing = none →
      (checkForNewData m env).monitor = { m with lastRowCount := c }) ∧
    (env.triggerAMLProcessing ≠ none → (checkForNewData m env).monitor = m) := by
  have hev := lastProcessed_events_not_trigger env.getLastProcessedTime
  unfold triggered checkForNewData
  rw [hcount]
  simp only [hbase, if_false]
  by_cases hgt : c > m.lastRowCount
  · simp only [hgt, if_true]
    cases ht : env.triggerAMLProcessing with
    | none => simp [triggered_append, hev]
    | some e => simp [triggered_append, hev]
  · have hlt : c < m.lastRowCount := by omega
    simp only [hgt, hlt, if_true, if_false]
    cases ht : env.triggerAMLProcessing with
    | none => simp [triggered_append, hev]
    | some e => simp [triggered_append, hev]

theorem checkForNewData_unchanged (m : AMLMonitor) (env : Tick)
    (hbase : m.lastRowCount ≠ 0) (hcount : env.getCurrentRowCount = .ok m.lastRowCount) :
    triggered (checkForNewData m env) = false ∧ (checkForNewData m env).err = none ∧
    (checkForNewData m env).monitor = m := by
  have hev := lastProcessed_events_not_trigger env.getLastProcessedTime
  unfold triggered checkForNewData
  rw [hcount]
  simp only [hbase, if_false, gt_iff_lt, lt_self_iff_false]
  refine ⟨?_, trivial, trivial⟩
  rw [triggered_append, hev]
  rfl

/-! ## Lemmas on the grouping of the detection query -/

theorem aggregate_key (rows : List VelocityRow) (k : String × Date) :
    ((aggregate rows k).customer_id, (aggregate rows k).transaction_date) = k := rfl

theorem aggregate_count (rows : List VelocityRow) (k : String × Date) :
    (aggregate rows k).rapid_transaction_count = ((groupRows rows k).length : Int) := rfl

/-- A group is kept by `HAVING COUNT(*) >= 5` exactly when it has at least five rows. -/
theorem flagged_iff_group_size (vd : List VelocityRow) (today : Date) (c : String) (d : Date) :
    (∃ g ∈ rapid_transactions vd today, g.customer_id = c ∧ g.transaction_date = d) ↔
      5 ≤ (groupRows (rapidWhere today vd) (c, d)).length := by
  unfold rapid_transactions
  simp only [List.mem_filter, List.mem_map, List.mem_dedup, decide_eq_true_eq]
  constructor
  · rintro ⟨g, ⟨⟨k, -, rfl⟩, hcount⟩, hc, hd⟩
    have hk : k = (c, d) := by
      rw [← aggregate_key (rapidWhere today vd) k]
      simp only [hc, hd]
    rw [aggregate_count, hk] at hcount
    exact_mod_cast hcount
  · intro h
    have hpos : 0 < (groupRows (rapidWhere today vd) (c, d)).length := by omega
    obtain ⟨r, hr⟩ := List.exists_mem_of_length_pos hpos
    unfold groupRows at hr
    rw [List.mem_filter, decide_eq_true_eq] at hr
    refine ⟨aggregate (rapidWhere today vd) (c, d), ⟨⟨(c, d), ⟨r, hr.1, hr.2⟩, rfl⟩, ?_⟩,
      rfl, rfl⟩
    rw [aggregate_count]
    exact_mod_cast h

theorem groupRows_rapidWhere_length (vd : List VelocityRow) (today : Date) (c : String)
    (d : Date) :
    (groupRows (rapidWhere today vd) (c, d)).length
      = if today - 1 ≤ d then
          rapidGapCount (vd.filter (fun r => decide (r.customer_id = c))) d
        else 0 := by
  unfold groupRows rapidWhere rapidGapCount
  rw [List.filter_filter, List.countP_filter, List.countP_eq_length_filter]
  split
  · next h =>
    congr 1
    apply List.filter_congr
    intro r _
    by_cases h1 : r.customer_id = c <;> by_cases h2 : r.transaction_date = d <;>
      simp [h1, h2, h]
  · next h =>
    rw [List.length_eq_zero, List.filter_eq_nil_iff]
    intro r _
    by_cases h2 : r.transaction_date = d
    · simp [h2, h]
    · simp [h2]

/-! ## Lemmas on the window partitions -/

theorem lagRows_customer_id (prev : Option Timestamp) (l : List Transaction) :
    ∀ r ∈ lagRows prev l, ∃ t ∈ l, r.customer_id = customer_id t := by
  induction l generalizing prev with
  | nil => intro r hr; cases hr
  | cons t ts ih =>
    intro r hr
    simp only [lagRows, List.mem_cons] at hr
    rcases hr with rfl | hr
    · exact ⟨t, List.mem_cons_self _ _, rfl⟩
    · obtain ⟨t2, ht2, h⟩ := ih _ r hr
      exact ⟨t2, List.mem_cons_of_mem _ ht2, h⟩

theorem lagRows_length (prev : Option Timestamp) (l : List Transaction) :
    (lagRows prev l).length = l.length := by
  induction l generalizing prev with
  | nil => rfl
  | cons t ts ih => simp [lagRows, ih]

theorem orderByTime_mem {l : List Transaction} {t : Transaction} :
    t ∈ orderByTime l ↔ t ∈ l :=
  (List.perm_insertionSort _ l).mem_iff

theorem orderByTime_length (l : List Transaction) : (orderByTime l).length = l.length :=
  (List.perm_insertionSort _ l).length_eq

theorem customerRows_customer_id (txs : List Transaction) (wm : Option Timestamp) (c : String) :
    ∀ r ∈ customerRows txs wm c, r.customer_id = c := by
  intro r hr
  obtain ⟨t, ht, h⟩ := lagRows_customer_id _ _ r hr
  rw [orderByTime_mem, List.mem_filter, decide_eq_true_eq] at ht
  rw [h, ht.2]

theorem customerRows_of_not_mem {txs : List Transaction} {wm : Option Timestamp} {c : String}
    (h : c ∉ (newSince txs wm).map customer_id) : customerRows txs wm c = [] := by
  unfold customerRows
  have : (newSince txs wm).filter (fun t => decide (customer_id t = c)) = [] := by
    rw [List.filter_eq_nil_iff]
    intro t ht hc
    rw [decide_eq_true_eq] at hc
    exact h (List.mem_map.mpr ⟨t, ht, hc⟩)
  rw [this]
  rfl

theorem filter_flatMap_partitions (f : String → List VelocityRow) (c : String)
    (hf : ∀ c2, ∀ r ∈ f c2, r.customer_id = c2) (l : List String) (hl : l.Nodup) :
    (l.flatMap f).filter (fun r => decide (r.customer_id = c)) = if c ∈ l then f c else [] := by
  induction l with
  | nil => rfl
  | cons x xs ih =>
    rw [List.nodup_cons] at hl
    rw [List.flatMap_cons, List.filter_append, ih hl.2]
    by_cases hx : x = c
    · subst hx
      have h1 : (f x).filter (fun r => decide (r.customer_id = x)) = f x := by
        rw [List.filter_eq_self]
        intro r hr
        simp [hf x r hr]
      simp [h1, hl.1]
    · have h1 : (f x).filter (fun r => decide (r.customer_id = c)) = [] := by
        rw [List.filter_eq_nil_iff]
        intro r hr
        simp only [decide_eq_true_eq]
        rw [hf x r hr]
        exact hx
      have hc : (c ∈ x :: xs) ↔ c ∈ xs := by
        simp only [List.mem_cons]
        constructor
        · rintro (h | h)
          · exact absurd h.symm hx
          · exact h
        · exact Or.inr
      simp only [h1, List.nil_append, hc]

/-- The rows of `velocity_data` of one customer are that customer's scanned events in time
order, each with the gap to the previous one. -/
theorem velocity_data_of_customer (txs : List Transaction) (wm : Option Timestamp) (c : String) :
    (velocity_data txs wm).filter (fun r => decide (r.customer_id = c))
      = customerRows txs wm c := by
  have h := filter_flatMap_partitions (customerRows txs wm) c
    (fun c2 => customerRows_customer_id txs wm c2)
    ((newSince txs wm).map customer_id).dedup (List.nodup_dedup _)
  have hv : velocity_data txs wm
      = (((newSince txs wm).map customer_id).dedup).flatMap (customerRows txs wm) := rfl
  rw [hv, h]
  split
  · rfl
  · next hc =>
    rw [List.mem_dedup] at hc
    exact (customerRows_of_not_mem hc).symm

theorem rapidGapCount_lagRows_some (p : Timestamp) (l : List Transaction) (d : Date) :
    rapidGapCount (lagRows (some p) l) d ≤ l.length := by
  unfold rapidGapCount
  calc List.countP _ (lagRows (some p) l) ≤ (lagRows (some p) l).length := List.countP_le_length _
    _ = l.length := lagRows_length _ _

/-- The first scanned event of a customer has no gap: it is never counted. -/
theorem rapidGapCount_lagRows_none (l : List Transaction) (d : Date) :
    rapidGapCount (lagRows none l) d + 1 ≤ l.length ∨ l = [] := by
  cases l with
  | nil => right; rfl
  | cons t ts =>
    left
    have h := rapidGapCount_lagRows_some t.trans_date_trans_time ts d
    unfold rapidGapCount at h ⊢
    simp only [lagRows, List.length_cons]
    rw [List.countP_cons_of_neg]
    · omega
    · simp [isRapid]

theorem rapidGapCount_customerRows_lt (txs : List Transaction) (wm : Option Timestamp)
    (c : String) (d : Date) (h : 0 < rapidGapCount (customerRows txs wm c) d) :
    rapidGapCount (customerRows txs wm c) d + 1
      ≤ ((newSince txs wm).filter (fun t => decide (customer_id t = c))).length := by
  unfold customerRows at h ⊢
  rcases rapidGapCount_lagRows_none
    (orderByTime ((newSince txs wm).filter (fun t => decide (customer_id t = c)))) d with h1 | h1
  · rw [orderByTime_length] at h1
    exact h1
  · rw [h1] at h
    simp [rapidGapCount, lagRows] at h

/-! ## Lemmas on score and priority -/

theorem numberRows_scoring (maxId : Int) (now : Timestamp) (gs : List RapidTransactions)
    (n : Nat) :
    (numberRows maxId now n gs).map
        (fun a => (a.customer_id, a.alert_date, a.risk_score, a.priority))
      = gs.map (fun g => (g.customer_id, g.transaction_date,
          riskScore g.rapid_transaction_count, priorityOf g.rapid_transaction_count)) := by
  induction gs generalizing n with
  | nil => rfl
  | cons g gs ih => simp [numberRows, alertRow, ih]

theorem riskScore_eq (c : Int) : riskScore c = min (max (15 * c) 60) 100 := by
  unfold riskScore
  rw [mul_comm]

theorem priorityOf_eq (c : Int) :
    priorityOf c = if 10 ≤ c then "HIGH" else if 7 ≤ c ∧ c < 10 then "MEDIUM" else "LOW" := by
  unfold priorityOf
  by_cases h10 : 10 ≤ c
  · simp [h10]
  · by_cases h7 : 7 ≤ c
    · have : c < 10 := by omega
      simp [h10, h7, this]
    · simp [h10, h7]

/-! ## Lemmas on the alerts a pass can write -/

theorem rapid_transactions_count_ge {vd : List VelocityRow} {today : Date}
    {g : RapidTransactions} (h : g ∈ rapid_transactions vd today) :
    5 ≤ g.rapid_transaction_count := by
  unfold rapid_transactions at h
  rw [List.mem_filter, decide_eq_true_eq] at h
  exact h.2

theorem numberRows_mem {maxId : Int} {now : Timestamp} {gs : List RapidTransactions} {n : Nat}
    {a : Alert} (h : a ∈ numberRows maxId now n gs) :
    ∃ g ∈ gs, ∃ k : Nat, a = alertRow maxId now k g := by
  induction gs generalizing n with
  | nil => cases h
  | cons g gs ih =>
    simp only [numberRows, List.mem_cons] at h
    rcases h with rfl | h
    · exact ⟨g, List.mem_cons_self _ _, n, rfl⟩
    · obtain ⟨g2, hg2, k, hk⟩ := ih h
      exact ⟨g2, List.mem_cons_of_mem _ hg2, k, hk⟩

theorem passAlerts_mem {db : Database} {clk : Clock} {a : Alert} (h : a ∈ passAlerts db clk) :
    ∃ c : Int, 5 ≤ c ∧ a.risk_score = riskScore c ∧ a.priority = priorityOf c := by
  unfold passAlerts velocityAlerts at h
  obtain ⟨g, hg, k, rfl⟩ := numberRows_mem h
  unfold orderByCountDesc at hg
  rw [(List.perm_insertionSort _ _).mem_iff] at hg
  exact ⟨g.rapid_transaction_count, rapid_transactions_count_ge hg, rfl, rfl⟩

theorem priorityOf_medium_or_high {c : Int}
    (h : priorityOf c = "MEDIUM" ∨ priorityOf c = "HIGH") : 7 ≤ c := by
  unfold priorityOf at h
  by_cases h10 : c ≥ 10
  · omega
  · by_cases h7 : c ≥ 7
    · exact h7
    · simp only [h10, h7, if_false] at h
      rcases h with h | h <;> exact absurd h (by decide)

/-! ## Lemmas on decimal digits -/

theorem digitChar_isDigit : ∀ d, d < 10 → (Nat.digitChar d).isDigit = true := by
  decide

theorem toDigitsCore_isDigit (fuel : Nat) : ∀ (n : Nat) (ds : List Char),
    (∀ c ∈ ds, c.isDigit = true) → ∀ c ∈ Nat.toDigitsCore 10 fuel n ds, c.isDigit = true := by
  induction fuel with
  | zero => intro n ds h; exact h
  | succ fuel ih =>
    intro n ds h
    have hd : ∀ c ∈ Nat.digitChar (n % 10) :: ds, c.isDigit = true := by
      intro c hc
      rcases List.mem_cons.mp hc with rfl | hc
      · exact digitChar_isDigit _ (Nat.mod_lt _ (by decide))
      · exact h c hc
    simp only [Nat.toDigitsCore]
    split
    · exact hd
    · exact ih _ _ hd

theorem toDigitsCore_length_ge (fuel : Nat) : ∀ (n : Nat) (ds : List Char),
    ds.length ≤ (Nat.toDigitsCore 10 fuel n ds).length := by
  induction fuel with
  | zero => intro n ds; exact Nat.le_refl _
  | succ fuel ih =>
    intro n ds
    simp only [Nat.toDigitsCore]
    split
    · simp
    · exact Nat.le_trans (by simp) (ih _ _)

theorem toDigits_isDigit (n : Nat) : ∀ c ∈ Nat.toDigits 10 n, c.isDigit = true :=
  toDigitsCore_isDigit _ _ _ (fun _ h => by cases h)

theorem toDigits_length_pos (n : Nat) : 1 ≤ (Nat.toDigits 10 n).length := by
  unfold Nat.toDigits
  simp only [Nat.toDigitsCore]
  split
  · simp
  · exact Nat.le_trans (by simp) (toDigitsCore_length_ge _ _ _)

theorem FormatInt_of_nonneg {n : Int} (h : 0 ≤ n) : FormatInt n = Nat.toDigits 10 n.toNat := by
  unfold FormatInt
  have : ¬ n < 0 := by omega
  simp only [this, if_false]
  congr 1
  omega

/-! ## Lemmas on the loop of `formatNumber` -/

theorem formatLoop_groups (k : Nat) : ∀ (cs : List Char) (i len : Nat),
    cs.length = 3 * k → i + cs.length = len → 0 < i →
    ∃ rest : List (List Char), cs = rest.flatten ∧ (∀ g ∈ rest, g.length = 3) ∧
      formatLoop len i cs = rest.flatMap (fun g => ',' :: g) := by
  induction k with
  | zero =>
    intro cs i len hlen _ _
    have : cs = [] := List.length_eq_zero.mp (by omega)
    subst this
    exact ⟨[], rfl, fun _ h => (by cases h), rfl⟩
  | succ k ih =>
    intro cs i len hlen hi hpos
    match cs, hlen with
    | a :: b :: c :: cs2, hlen =>
      simp only [List.length_cons] at hlen hi
      obtain ⟨rest, hrest, hall, hloop⟩ := ih cs2 (i + 3) len (by omega) (by omega) (by omega)
      refine ⟨[a, b, c] :: rest, by simp [hrest], ?_, ?_⟩
      · intro g hg
        rcases List.mem_cons.mp hg with rfl | hg
        · rfl
        · exact hall g hg
      · have h0 : (len - i) % 3 = 0 := by omega
        have h1 : ¬ (len - (i + 1)) % 3 = 0 := by omega
        have h2 : ¬ (len - (i + 1 + 1)) % 3 = 0 := by omega
        simp only [formatLoop, hpos, h0, h1, h2, and_false, and_self, if_true, if_false,
          List.nil_append, List.flatMap_cons, List.cons_append, List.singleton_append, hloop]
    | [], hlen => simp at hlen
    | [_], hlen => simp at hlen; omega
    | [_, _], hlen => simp at hlen; omega

theorem formatLoop_first_group (cs : List Char) (h1 : 1 ≤ cs.length) :
    ∃ (first : List Char) (rest : List (List Char)), cs = first ++ rest.flatten ∧
      1 ≤ first.length ∧ first.length ≤ 3 ∧ (∀ g ∈ rest, g.length = 3) ∧
      formatLoop cs.length 0 cs = first ++ rest.flatMap (fun g => ',' :: g) := by
  have hmod : cs.length % 3 = 1 ∨ cs.length % 3 = 2 ∨ cs.length % 3 = 0 := by omega
  rcases hmod with hm | hm | hm
  · match cs, h1, hm with
    | a :: cs2, _, hm =>
      simp only [List.length_cons] at hm
      obtain ⟨rest, hrest, hall, hloop⟩ :=
        formatLoop_groups (cs2.length / 3) cs2 1 (cs2.length + 1) (by omega) (by omega)
          (by omega)
      refine ⟨[a], rest, by simp [hrest], by simp, by simp, hall, ?_⟩
      simp only [formatLoop, List.length_cons, Nat.lt_irrefl, false_and, if_false,
        List.nil_append, Nat.zero_add, hloop, List.singleton_append]
  · match cs, h1, hm with
    | [_], _, hm => simp at hm
    | a :: b :: cs2, _, hm =>
      simp only [List.length_cons] at hm
      obtain ⟨rest, hrest, hall, hloop⟩ :=
        formatLoop_groups (cs2.length / 3) cs2 2 (cs2.length + 1 + 1) (by omega) (by omega)
          (by omega)
      refine ⟨[a, b], rest, by simp [hrest], by simp, by simp, hall, ?_⟩
      have h1 : ¬ (cs2.length + 1 + 1 - (0 + 1)) % 3 = 0 := by omega
      simp only [formatLoop, List.length_cons, Nat.lt_irrefl, false_and, if_false,
        List.nil_append, h1, and_false, hloop, List.cons_append]
  · match cs, h1, hm with
    | [_], _, hm => simp at hm
    | [_, _], _, hm => simp at hm
    | a :: b :: c :: cs2, _, hm =>
      simp only [List.length_cons] at hm
      obtain ⟨rest, hrest, hall, hloop⟩ :=
        formatLoop_groups (cs2.length / 3) cs2 3 (cs2.length + 1 + 1 + 1) (by omega) (by omega)
          (by omega)
      refine ⟨[a, b, c], rest, by simp [hrest], by simp, by simp, hall, ?_⟩
      have h1 : ¬ (cs2.length + 1 + 1 + 1 - (0 + 1)) % 3 = 0 := by omega
      have h2 : ¬ (cs2.length + 1 + 1 + 1 - (0 + 1 + 1)) % 3 = 0 := by omega
      simp only [formatLoop, List.length_cons, Nat.lt_irrefl, false_and, if_false,
        List.nil_append, h1, h2, and_false, hloop, List.cons_append]

theorem filter_commas_groups (first : List Char) (rest : List (List Char))
    (hf : ∀ c ∈ first, c ≠ ',') (hr : ∀ g ∈ rest, ∀ c ∈ g, c ≠ ',') :
    (first ++ rest.flatMap (fun g => ',' :: g)).filter (fun c => decide (c ≠ ','))
      = first ++ rest.flatten := by
  rw [List.filter_append]
  congr 1
  · rw [List.filter_eq_self]
    intro c hc
    simpa using hf c hc
  · induction rest with
    | nil => rfl
    | cons g gs ih =>
      rw [List.flatMap_cons, List.flatten_cons, List.filter_append,
        ih (fun g2 hg2 => hr g2 (List.mem_cons_of_mem _ hg2))]
      congr 1
      rw [List.filter_cons_of_neg (by simp), List.filter_eq_self]
      intro c hc
      simpa using hr g (List.mem_cons_self _ _) c hc

theorem isDigit_ne_comma {c : Char} (h : c.isDigit = true) : c ≠ ',' := by
  rintro rfl
  exact absurd h (by decide)

/-! ## Lemmas on the rows of one customer -/

theorem DATE_mono {a b : Timestamp} (h : a ≤ b) : DATE a ≤ DATE b := by
  unfold DATE
  exact Int.ediv_le_ediv (by decide) h

theorem DATE_between {a b x : Timestamp} (hab : DATE b = DATE a) (h1 : a ≤ x) (h2 : x ≤ b) :
    DATE x = DATE a := by
  exact le_antisymm (hab ▸ DATE_mono h2) (DATE_mono h1)

/-- The day and the gap of the rows of a partition depend on the timestamps only. -/
theorem rapidGapCount_lagRows_congr (d : Date) : ∀ (l1 l2 : List Transaction)
    (prev : Option Timestamp),
    l1.map (fun t => t.trans_date_trans_time) = l2.map (fun t => t.trans_date_trans_time) →
    rapidGapCount (lagRows prev l1) d = rapidGapCount (lagRows prev l2) d := by
  intro l1
  induction l1 with
  | nil =>
    intro l2 prev h
    cases l2 with
    | nil => rfl
    | cons b bs => cases h
  | cons a as ih =>
    intro l2 prev h
    cases l2 with
    | nil => cases h
    | cons b bs =>
      simp only [List.map_cons, List.cons.injEq] at h
      have hrec := ih bs (some b.trans_date_trans_time) h.2
      unfold rapidGapCount at hrec ⊢
      simp only [lagRows, List.countP_cons, h.1]
      rw [hrec]
      congr 1

theorem orderByTime_timestamps (l : List Transaction) :
    (orderByTime l).map (fun t => t.trans_date_trans_time)
      = (l.map (fun t => t.trans_date_trans_time)).insertionSort (· ≤ ·) := by
  unfold orderByTime
  exact List.map_insertionSort _ _ _ _ (fun _ _ _ _ => Iff.rfl)

theorem orderByTime_timestamps_of_perm {l : List Transaction} {ts : List Timestamp}
    (hp : (l.map (fun t => t.trans_date_trans_time)).Perm ts) (hs : ts.Sorted (· ≤ ·)) :
    (orderByTime l).map (fun t => t.trans_date_trans_time) = ts := by
  rw [orderByTime_timestamps]
  exact List.eq_of_perm_of_sorted ((List.perm_insertionSort _ _).trans hp)
    (List.sorted_insertionSort _ _) hs

theorem map_timestamp_bareEvent (ts : List Timestamp) :
    (ts.map bareEvent).map (fun t => t.trans_date_trans_time) = ts := by
  rw [List.map_map]
  exact List.map_id _

/-- The rapid count of a customer whose scanned events have the timestamps `ts`. -/
theorem rapidGapCount_customerRows_of_timestamps {txs : List Transaction}
    {wm : Option Timestamp} {c : String} {ts : List Timestamp} (d : Date)
    (hp : (((newSince txs wm).filter (fun t => decide (customer_id t = c))).map
      (fun t => t.trans_date_trans_time)).Perm ts)
    (hs : ts.Sorted (· ≤ ·)) :
    rapidGapCount (customerRows txs wm c) d = rapidGapCount (lagRows none (ts.map bareEvent)) d := by
  unfold customerRows
  apply rapidGapCount_lagRows_congr
  rw [orderByTime_timestamps_of_perm hp hs, map_timestamp_bareEvent]

/-! ## Lemmas on the groups of the detection query -/

/-- What a row of `rapid_transactions` says about its customer and day. -/
theorem rapid_transactions_mem {txs : List Transaction} {wm : Option Timestamp} {today : Date}
    {g : RapidTransactions} (h : g ∈ rapid_transactions (velocity_data txs wm) today) :
    today - 1 ≤ g.transaction_date ∧
    g.rapid_transaction_count
      = (rapidGapCount (customerRows txs wm g.customer_id) g.transaction_date : Int) ∧
    g = aggregate (rapidWhere today (velocity_data txs wm))
      (g.customer_id, g.transaction_date) := by
  have h5 := rapid_transactions_count_ge h
  unfold rapid_transactions at h
  simp only [List.mem_filter, List.mem_map, List.mem_dedup] at h
  obtain ⟨⟨k, -, rfl⟩, -⟩ := h
  rw [aggregate_count] at h5
  have hk : ((aggregate (rapidWhere today (velocity_data txs wm)) k).customer_id,
      (aggregate (rapidWhere today (velocity_data txs wm)) k).transaction_date) = k :=
    aggregate_key _ k
  rw [aggregate_count, hk]
  have hlen := groupRows_rapidWhere_length (velocity_data txs wm) today k.1 k.2
  rw [velocity_data_of_customer] at hlen
  rw [show ((k.1, k.2) : String × Date) = k from rfl] at hlen
  by_cases hd : today - 1 ≤ k.2
  · rw [if_pos hd] at hlen
    exact ⟨hd, by rw [hlen]; rfl, rfl⟩
  · rw [if_neg hd] at hlen
    rw [hlen] at h5
    exact absurd h5 (by decide)

theorem rapid_transactions_nodup (vd : List VelocityRow) (today : Date) :
    (rapid_transactions vd today).Nodup := by
  unfold rapid_transactions
  apply List.Nodup.filter
  refine List.Nodup.map_on ?_ (List.nodup_dedup _)
  intro k1 _ k2 _ h
  rw [← aggregate_key (rapidWhere today vd) k1, ← aggregate_key (rapidWhere today vd) k2, h]

theorem eq_singleton_of_nodup {α : Type} {l : List α} {g : α} (hn : l.Nodup) (hg : g ∈ l)
    (hall : ∀ x ∈ l, x = g) : l = [g] := by
  match l, hn, hg, hall with
  | [x], _, _, hall => rw [hall x (List.mem_cons_self _ _)]
  | x :: y :: l2, hn, _, hall =>
    have hx := hall x (List.mem_cons_self _ _)
    have hy := hall y (List.mem_cons_of_mem _ (List.mem_cons_self _ _))
    rw [List.nodup_cons] at hn
    exact absurd (by rw [hx, hy]; exact List.mem_cons_self _ _) hn.1

/-- The groups of a customer whose rapid events all fall on one day. -/
theorem rapid_transactions_of_customer_one_day {txs : List Transaction}
    {wm : Option Timestamp} (today : Date) (c : String) {d : Date} (n : Nat)
    (hwin : today - 1 ≤ d) (hn : 5 ≤ n)
    (hd : rapidGapCount (customerRows txs wm c) d = n)
    (hother : ∀ d2, d2 ≠ d → rapidGapCount (customerRows txs wm c) d2 = 0) :
    ∃ g, (rapid_transactions (velocity_data txs wm) today).filter
        (fun g => decide (g.customer_id = c)) = [g] ∧
      g.customer_id = c ∧ g.transaction_date = d ∧ g.rapid_transaction_count = n := by
  have hex : ∃ g ∈ rapid_transactions (velocity_data txs wm) today,
      g.customer_id = c ∧ g.transaction_date = d := by
    rw [flagged_iff_group_size, groupRows_rapidWhere_length, velocity_data_of_customer,
      if_pos hwin, hd]
    exact hn
  obtain ⟨g, hg, hgc, hgd⟩ := hex
  obtain ⟨-, hcount, hagg⟩ := rapid_transactions_mem hg
  refine ⟨g, ?_, hgc, hgd, by rw [hcount, hgc, hgd, hd]⟩
  apply eq_singleton_of_nodup ((rapid_transactions_nodup _ _).filter _)
  · rw [List.mem_filter, decide_eq_true_eq]; exact ⟨hg, hgc⟩
  · intro x hx
    rw [List.mem_filter, decide_eq_true_eq] at hx
    obtain ⟨-, hxcount, hxagg⟩ := rapid_transactions_mem hx.1
    have hx5 := rapid_transactions_count_ge hx.1
    have hxd : x.transaction_date = d := by
      by_contra hne
      rw [hxcount, hx.2, hother _ hne] at hx5
      exact absurd hx5 (by decide)
    rw [hxagg, hagg, hx.2, hgc, hxd, hgd]

theorem numberRows_filter_customer (maxId : Int) (now : Timestamp) (c : String)
    (gs : List RapidTransactions) (n : Nat) :
    ((numberRows maxId now n gs).filter (fun a => decide (a.customer_id = c))).map
        (fun a => (a.alert_date, a.risk_score, a.priority))
      = (gs.filter (fun g => decide (g.customer_id = c))).map
          (fun g => (g.transaction_date, riskScore g.rapid_transaction_count,
            priorityOf g.rapid_transaction_count)) := by
  induction gs generalizing n with
  | nil => rfl
  | cons g gs ih =>
    by_cases h : g.customer_id = c
    · simp [numberRows, alertRow, List.filter_cons, h, ih]
    · simp [numberRows, alertRow, List.filter_cons, h, ih]

theorem velocityAlerts_of_customer_singleton {alerts : List Alert}
    {rt : List RapidTransactions} {now : Timestamp} {c : String} {g : RapidTransactions}
    (h : rt.filter (fun g => decide (g.customer_id = c)) = [g]) :
    ((velocityAlerts alerts rt now).filter (fun a => decide (a.customer_id = c))).map
        (fun a => (a.alert_date, a.risk_score, a.priority))
      = [(g.transaction_date, riskScore g.rapid_transaction_count,
          priorityOf g.rapid_transaction_count)] := by
  unfold velocityAlerts
  rw [numberRows_filter_customer]
  have hp : ((orderByCountDesc rt).filter (fun g => decide (g.customer_id = c))).Perm [g] := by
    rw [← h]
    exact (List.perm_insertionSort _ rt).filter _
  rw [List.perm_singleton.mp hp]
  rfl

/-! ## Lemmas on the six-event scenario -/

theorem minutes_between (t : Timestamp) (a b : Int) :
    TIMESTAMP_DIFF_MINUTE (t + b * microsPerMinute) (t + a * microsPerMinute) = b - a := by
  unfold TIMESTAMP_DIFF_MINUTE
  have : t + b * microsPerMinute - (t + a * microsPerMinute) = (b - a) * microsPerMinute := by
    ring
  rw [this, Int.mul_tdiv_cancel _ (by decide)]

theorem minutes_from_base (t : Timestamp) (b : Int) :
    TIMESTAMP_DIFF_MINUTE (t + b * microsPerMinute) t = b := by
  have h := minutes_between t 0 b
  simpa using h

/-- The rapid count of the six events at minute offsets 0, 2, 4, 5, 7, 9 on one day. -/
theorem rapidGapCount_scenario (base : Timestamp) (d : Date)
    (hday : DATE (base + 9 * microsPerMinute) = DATE base) :
    rapidGapCount (lagRows none
      ([base, base + 2 * microsPerMinute, base + 4 * microsPerMinute,
        base + 5 * microsPerMinute, base + 7 * microsPerMinute,
        base + 9 * microsPerMinute].map bareEvent)) d
      = if d = DATE base then 5 else 0 := by
  have hm : (0 : Int) ≤ microsPerMinute := by decide
  have d2 : DATE (base + 2 * microsPerMinute) = DATE base :=
    DATE_between hday (by linarith) (by linarith)
  have d4 : DATE (base + 4 * microsPerMinute) = DATE base :=
    DATE_between hday (by linarith) (by linarith)
  have d5 : DATE (base + 5 * microsPerMinute) = DATE base :=
    DATE_between hday (by linarith) (by linarith)
  have d7 : DATE (base + 7 * microsPerMinute) = DATE base :=
    DATE_between hday (by linarith) (by linarith)
  simp only [List.map, lagRows, bareEvent, rapidGapCount, List.countP_cons, List.countP_nil,
    isRapid, Option.map, minutes_between, minutes_from_base, d2, d4, d5, d7, hday]
  by_cases h : DATE base = d
  · subst h
    simp
  · have h2 : ¬ d = DATE base := fun e => h e.symm
    simp [h, h2]

/-! ## Lemmas on sorting a list split in two -/

/-- While `lastRowCount` is not `0`, on an observation whose count query succeeds: a count
different from `lastRowCount` (more or fewer rows) triggers a pass; if the pass succeeds
`lastRowCount` becomes the observed count, if it fails the monitor state is unchanged and an observation of the same count right after triggers
again; a count equal to `lastRowCount` triggers nothing and leaves the state unchanged. -/
theorem state_update_when_lastRowCount_nonzero (m : AMLMonitor) (env : Tick) (c : Int)
    (hbase : m.lastRowCount ≠ 0) (hcount : env.getCurrentRowCount = .ok c) :
    (c ≠ m.lastRowCount →
      triggered (checkForNewData m env) = true ∧
      (env.triggerAMLProcessing = none →
        (checkForNewData m env).monitor.lastRowCount = c) ∧
      (env.triggerAMLProcessing ≠ none →
        (checkForNewData m env).monitor = m ∧
        ∀ next : Tick, next.getCurrentRowCount = .ok c →
          triggered (checkForNewData (checkForNewData m env).monitor next) = true)) ∧
    (c = m.lastRowCount →
      triggered (checkForNewData m env) = false ∧ (checkForNewData m env).monitor = m) := by
  constructor
  · intro hne
    obtain ⟨htrig, -, hok, hfail⟩ := checkForNewData_changed m env c hbase hcount hne
    refine ⟨htrig, fun h => by rw [hok h], fun h => ⟨hfail h, ?_⟩⟩
    intro next hnext
    rw [hfail h]
    exact (checkForNewData_changed m next c hbase hnext hne).1
  · intro heq
    subst heq
    obtain ⟨h1, -, h2⟩ := checkForNewData_unchanged m env hbase hcount
    exact ⟨h1, h2⟩

/-! ## Lemmas on two passes over a split record set -/

/-- C1 (as amended): after a pass that succeeded, a second pass over the same transaction
table, none of whose records is newer than the second pass's `MERGE` time, succeeds, inserts
no alert, and sets `last_processed_timestamp` to its own `MERGE` time (the first pass had set
it to its own). -/
theorem second_pass_inserts_nothing_and_moves_watermark (db db1 : Database) (env1 : JobEnv)
    (clk2 : Clock)
    (h1 : runAMLProcessing db env1 = (db1, none))
    (hpast : ∀ t ∈ db1.credit_card_transactions, t.trans_date_trans_time ≤ clk2.mergeTime) :
    ∃ db2, runAMLProcessing db1 (healthy clk2) = (db2, none) ∧
      db2.credit_card_transactions = db1.credit_card_transactions ∧
      db2.aml_alerts_level1 = db1.aml_alerts_level1 ∧
      watermark db1 = some env1.clock.mergeTime ∧
      watermark db2 = some clk2.mergeTime := by
  obtain ⟨-, -, r1, hr1, hwm1, -⟩ := script_no_error_state (runAMLProcessing_no_error h1)
  obtain ⟨db2, h2⟩ := script_succeeds clk2 (lastProcessedSubquery_of_rows hr1)
  obtain ⟨htx, hal, r2, hr2, hwm2, -⟩ := script_no_error_state h2
  refine ⟨db2, ?_, htx, ?_, watermark_of_rows hr1 hwm1, watermark_of_rows hr2 hwm2⟩
  · rw [runAMLProcessing_healthy, h2]; rfl
  · rw [hal]
    unfold passAlerts
    rw [velocity_data_of_newSince_nil (newSince_eq_nil hpast), rapid_transactions_nil,
      velocityAlerts_nil, List.append_nil]

/-- The amended C1 at the six-transaction store: first pass ten minutes after `t0`, second
pass twenty minutes after `t0`. -/
theorem second_pass_inserts_nothing_and_moves_watermark_witness :
    runAMLProcessing freshStore (healthy (clockAt (t0 + 10 * microsPerMinute)))
      = (afterFirstPass, none) ∧
    (∀ t ∈ afterFirstPass.credit_card_transactions,
      t.trans_date_trans_time ≤ (clockAt (t0 + 20 * microsPerMinute)).mergeTime) ∧
    ∃ db2, runAMLProcessing afterFirstPass (healthy (clockAt (t0 + 20 * microsPerMinute)))
        = (db2, none) ∧
      db2.credit_card_transactions = afterFirstPass.credit_card_transactions ∧
      db2.aml_alerts_level1 = afterFirstPass.aml_alerts_level1 ∧
      watermark afterFirstPass = some (t0 + 10 * microsPerMinute) ∧
      watermark db2 = some (t0 + 20 * microsPerMinute) :=
  ⟨by decide, by decide,
    second_pass_inserts_nothing_and_moves_watermark freshStore afterFirstPass
      (healthy (clockAt (t0 + 10 * microsPerMinute))) (clockAt (t0 + 20 * microsPerMinute))
      (by decide) (by decide)⟩

/-- C1 (as stated) fails.  On the six-transaction store a first pass ten minutes after `t0`
and a second one ten minutes later, nothing being ingested in between, both succeed and the
second one changes `last_processed_timestamp`.  When the passes start before the transactions
(which are then future-dated), the second pass moreover inserts a new alert. -/
theorem second_pass_changes_watermark :
    runAMLProcessing freshStore (healthy (clockAt (t0 + 10 * microsPerMinute)))
      = (afterFirstPass, none) ∧
    (runAMLProcessing afterFirstPass (healthy (clockAt (t0 + 20 * microsPerMinute)))).2 = none ∧
    (runAMLProcessing afterFirstPass
      (healthy (clockAt (t0 + 20 * microsPerMinute)))).1.credit_card_transactions
      = afterFirstPass.credit_card_transactions ∧
    watermark (runAMLProcessing afterFirstPass (healthy (clockAt (t0 + 20 * microsPerMinute)))).1
      ≠ watermark afterFirstPass ∧
    runAMLProcessing freshStore (healthy (clockAt (t0 - 10 * microsPerMinute)))
      = (afterEarlyPass, none) ∧
    (runAMLProcessing afterEarlyPass (healthy (clockAt (t0 - 5 * microsPerMinute)))).2 = none ∧
    afterEarlyPass.aml_alerts_level1.map (fun a => (a.alert_id, a.customer_id)) = [(1, "A_B")] ∧
    (runAMLProcessing afterEarlyPass
      (healthy (clockAt (t0 - 5 * microsPerMinute)))).1.aml_alerts_level1.map
        (fun a => (a.alert_id, a.customer_id)) = [(1, "A_B"), (2, "A_B")] := by
  decide

/-! ## C2: the records the detection runs over -/

/-- C2 at a failing input.  The checkpoint holds a watermark just before six transactions one
minute apart; a healthy pass starts ten minutes after them.  The `MERGE` counts the six
records newer than the watermark held at the start, while the `INSERT` of the same pass
reads the watermark the `MERGE` has just written, scans no record and writes no alert,
although detection over the six counted records flags the customer. -/
theorem detection_skips_the_counted_records :
    (runAMLProcessing completedStore (healthy (clockAt (t0 + 10 * microsPerMinute)))).2 = none ∧
    watermark completedStore = some (t0 - 1) ∧
    (newSince completedStore.credit_card_transactions (watermark completedStore)).length = 6 ∧
    (checkpointRows completedStore.processing_metadata).map
      (fun r => r.total_records_processed) = [100] ∧
    (checkpointRows (runAMLProcessing completedStore
      (healthy (clockAt (t0 + 10 * microsPerMinute)))).1.processing_metadata).map
      (fun r => r.total_records_processed) = [106] ∧
    newSince completedStore.credit_card_transactions
      (some (clockAt (t0 + 10 * microsPerMinute)).mergeTime) = [] ∧
    (runAMLProcessing completedStore
      (healthy (clockAt (t0 + 10 * microsPerMinute)))).1.aml_alerts_level1 = [] ∧
    (rapid_transactions
      (velocity_data completedStore.credit_card_transactions (watermark completedStore))
      (DATE (clockAt (t0 + 10 * microsPerMinute)).insertTime)).map
      (fun g => (g.customer_id, g.rapid_transaction_count)) = [("A_B", 5)] := by
  decide

/-! ## C3: alert identifiers -/

/-- C3: a pass appends alerts whose identifiers are the dense range
`max_existing + 1 .. max_existing + k` (`max_existing` is `0` on an empty table), each greater
than every identifier present before the pass; over any sequence of passes run one after the
other from any store, the identifiers written are strictly increasing in the order written,
hence pairwise distinct, and greater than every identifier of the initial table. -/
theorem alert_ids_dense_and_increasing :
    (∀ (db : Database) (env : JobEnv), ∃ written : List Alert,
      (runAMLProcessing db env).1.aml_alerts_level1 = db.aml_alerts_level1 ++ written ∧
      written.map (fun a => a.alert_id)
        = (List.range written.length).map
            (fun (i : Nat) => maxAlertId db.aml_alerts_level1 + 1 + (i : Int)) ∧
      (∀ a ∈ db.aml_alerts_level1, ∀ w ∈ written, a.alert_id < w.alert_id) ∧
      (db.aml_alerts_level1 = [] → maxAlertId db.aml_alerts_level1 = 0)) ∧
    (∀ (db : Database) (ps : List PassInput), ∃ written : List Alert,
      (runPasses db ps).aml_alerts_level1 = db.aml_alerts_level1 ++ written ∧
      (written.map (fun a => a.alert_id)).Pairwise (· < ·) ∧
      (written.map (fun a => a.alert_id)).Nodup ∧
      ∀ a ∈ db.aml_alerts_level1, ∀ w ∈ written, a.alert_id < w.alert_id) := by
  constructor
  · intro db env
    obtain ⟨w, h, hid⟩ := runAMLProcessing_written db env
    refine ⟨w, h, hid, ?_, ?_⟩
    · intro a ha x hx
      have hmem : x.alert_id ∈ w.map (fun a => a.alert_id) := List.mem_map_of_mem _ hx
      rw [hid] at hmem
      have := dense_ids_gt hmem
      have := le_maxAlertId ha
      omega
    · intro he
      rw [he]; rfl
  · intro db ps
    obtain ⟨w, h, hs, hgt⟩ := runPasses_written ps db
    exact ⟨w, h, hs, hs.imp (fun hlt => ne_of_lt hlt), hgt⟩

/-! ## C4: a checkpoint left in PROCESSING -/

/-- C4 (as amended): the script has no guard on the checkpoint status.  Starting a pass on a
checkpoint whose status is `PROCESSING` is not rejected: when nothing fails the pass returns
no error and ends exactly as it does from the same checkpoint with any other status, having
appended the alerts its detection yields and left the checkpoint with the pass's `MERGE` time
as watermark and status `COMPLETED`. -/
theorem processing_checkpoint_is_not_guarded (db : Database) (r : ProcessingMetadata)
    (clk : Clock) (hrow : checkpointRows db.processing_metadata = [r]) :
    (∀ r0 ∈ checkpointRows (withStatus "PROCESSING" db).processing_metadata,
      r0.status = "PROCESSING") ∧
    ∃ db2, runAMLProcessing (withStatus "PROCESSING" db) (healthy clk) = (db2, none) ∧
      (∀ s, runAMLProcessing (withStatus s db) (healthy clk) = (db2, none)) ∧
      db2.aml_alerts_level1 = db.aml_alerts_level1 ++ passAlerts db clk ∧
      ∃ r2, checkpointRows db2.processing_metadata = [r2] ∧
        r2.last_processed_timestamp = some clk.mergeTime ∧ r2.status = "COMPLETED" := by
  have hq := lastProcessedSubquery_of_rows hrow
  obtain ⟨db2, h2⟩ := script_succeeds clk hq
  obtain ⟨-, hal, r2, hr2, hwm2, hst2⟩ := script_no_error_state h2
  have hall : ∀ s, runAMLProcessing (withStatus s db) (healthy clk) = (db2, none) := by
    intro s
    rw [runAMLProcessing_healthy, getAMLProcessingSQL_withStatus s db clk hq, h2]; rfl
  refine ⟨?_, db2, hall _, hall, hal, r2, hr2, hwm2, hst2⟩
  intro r0 hr0
  have hrows : checkpointRows (withStatus "PROCESSING" db).processing_metadata
      = (checkpointRows db.processing_metadata).map (fun r => { r with status := "PROCESSING" }) :=
    checkpointRows_map_update (fun r => { r with status := "PROCESSING" }) (fun _ => rfl) _
  rw [hrows, hrow] at hr0
  simp only [List.map_cons, List.map_nil, List.mem_singleton] at hr0
  rw [hr0]

/-- The amended C4 at a store whose checkpoint was left in `PROCESSING`. -/
theorem processing_checkpoint_is_not_guarded_witness :
    checkpointRows processingStore.processing_metadata
      = [checkpointRow "PROCESSING" (t0 - 60 * microsPerMinute)] ∧
    (∀ r0 ∈ checkpointRows (withStatus "PROCESSING" processingStore).processing_metadata,
      r0.status = "PROCESSING") ∧
    ∃ db2, runAMLProcessing (withStatus "PROCESSING" processingStore)
        (healthy (clockAt (t0 - 10 * microsPerMinute))) = (db2, none) ∧
      (∀ s, runAMLProcessing (withStatus s processingStore)
        (healthy (clockAt (t0 - 10 * microsPerMinute))) = (db2, none)) ∧
      db2.aml_alerts_level1 = processingStore.aml_alerts_level1
        ++ passAlerts processingStore (clockAt (t0 - 10 * microsPerMinute)) ∧
      ∃ r2, checkpointRows db2.processing_metadata = [r2] ∧
        r2.last_processed_timestamp = some (clockAt (t0 - 10 * microsPerMinute)).mergeTime ∧
        r2.status = "COMPLETED" :=
  ⟨by decide,
    processing_checkpoint_is_not_guarded processingStore
      (checkpointRow "PROCESSING" (t0 - 60 * microsPerMinute))
      (clockAt (t0 - 10 * microsPerMinute)) (by decide)⟩

/-- C4 (as stated) fails.  The checkpoint of `processingStore` has status `PROCESSING`; a pass
started on it returns no error, rewrites the checkpoint row and writes an alert. -/
theorem pass_on_processing_checkpoint_runs :
    (checkpointRows processingStore.processing_metadata).map (fun r => r.status)
      = ["PROCESSING"] ∧
    (runAMLProcessing processingStore (healthy (clockAt (t0 - 10 * microsPerMinute)))).2 = none ∧
    (runAMLProcessing processingStore
      (healthy (clockAt (t0 - 10 * microsPerMinute)))).1.processing_metadata
      ≠ processingStore.processing_metadata ∧
    processingStore.aml_alerts_level1 = [] ∧
    (runAMLProcessing processingStore
      (healthy (clockAt (t0 - 10 * microsPerMinute)))).1.aml_alerts_level1.map
        (fun a => (a.alert_id, a.customer_id)) = [(1, "A_B")] := by
  decide

/-! ## C5: a pass that fails after the MERGE -/

/-- C5 (as amended): when the job starts, the `MERGE` succeeds and the alert `INSERT` or the
final `UPDATE` fails, `runAMLProcessing` returns an error and the checkpoint keeps what the
`MERGE` wrote: status `PROCESSING` and the pass's `MERGE` time as `last_processed_timestamp`. -/
theorem failure_after_merge_keeps_merge_state (db db1 : Database) (env : JobEnv)
    (hstart : env.startFails = false)
    (hm : env.rejected .merge = false)
    (hms : mergeStatement db env.clock.mergeTime = .ok db1)
    (hfail : env.rejected .insert = true ∨ env.rejected .update = true) :
    (runAMLProcessing db env).2 ≠ none ∧
    ∃ r, checkpointRows (runAMLProcessing db env).1.processing_metadata = [r] ∧
      r.status = "PROCESSING" ∧ r.last_processed_timestamp = some env.clock.mergeTime := by
  obtain ⟨-, -, r, hr, hwm, hst, -⟩ := mergeStatement_ok hms
  have key : ∃ e, getAMLProcessingSQL db env.clock env.rejected
      = ((getAMLProcessingSQL db env.clock env.rejected).1, some e) ∧
      (getAMLProcessingSQL db env.clock env.rejected).1.processing_metadata
        = db1.processing_metadata := by
    cases hi : env.rejected .insert
    · have hu : env.rejected .update = true := by
        rcases hfail with h | h
        · rw [hi] at h; cases h
        · exact h
      rw [script_update_rejected hm hi hu hms]
      exact ⟨_, rfl, rfl⟩
    · rw [script_insert_rejected hm hi hms]
      exact ⟨_, rfl, rfl⟩
  obtain ⟨e, he, hmd⟩ := key
  have h2 : (getAMLProcessingSQL db env.clock env.rejected).2 = some e := by
    rw [he]
  unfold runAMLProcessing
  simp only [hstart, Bool.false_eq_true, if_false]
  cases hw : env.waitFails
  · simp only [Bool.false_eq_true, if_false, h2]
    exact ⟨by simp, r, by rw [hmd]; exact hr, hst, hwm⟩
  · simp only [if_true]
    exact ⟨by simp, r, by rw [hmd]; exact hr, hst, hwm⟩

/-- The amended C5 at `completedStore`, the alert `INSERT` being rejected. -/
theorem failure_after_merge_keeps_merge_state_witness :
    (insertFails (clockAt (t0 + 10 * microsPerMinute))).startFails = false ∧
    (insertFails (clockAt (t0 + 10 * microsPerMinute))).rejected .merge = false ∧
    mergeStatement completedStore (insertFails (clockAt (t0 + 10 * microsPerMinute))).clock.mergeTime
      = .ok mergedStore ∧
    ((insertFails (clockAt (t0 + 10 * microsPerMinute))).rejected .insert = true ∨
      (insertFails (clockAt (t0 + 10 * microsPerMinute))).rejected .update = true) ∧
    (runAMLProcessing completedStore (insertFails (clockAt (t0 + 10 * microsPerMinute)))).2
      ≠ none ∧
    ∃ r, checkpointRows (runAMLProcessing completedStore
        (insertFails (clockAt (t0 + 10 * microsPerMinute)))).1.processing_metadata = [r] ∧
      r.status = "PROCESSING" ∧
      r.last_processed_timestamp
        = some (insertFails (clockAt (t0 + 10 * microsPerMinute))).clock.mergeTime :=
  ⟨rfl, rfl, rfl, Or.inl rfl,
    failure_after_merge_keeps_merge_state completedStore mergedStore
      (insertFails (clockAt (t0 + 10 * microsPerMinute))) rfl rfl rfl (Or.inl rfl)⟩

/-- C5 (as stated) fails.  On `completedStore` a pass whose alert `INSERT` is rejected returns
an error, but leaves the checkpoint with status `PROCESSING`, not `FAILED`, and with the
watermark moved from just before `t0` to the pass's `MERGE` time. -/
theorem failed_pass_leaves_processing_and_advanced_watermark :
    (runAMLProcessing completedStore (insertFails (clockAt (t0 + 10 * microsPerMinute)))).2
      = some "AML processing completed with error: statement failed" ∧
    (checkpointRows (runAMLProcessing completedStore
      (insertFails (clockAt (t0 + 10 * microsPerMinute)))).1.processing_metadata).map
      (fun r => r.status) = ["PROCESSING"] ∧
    watermark completedStore = some (t0 - 1) ∧
    watermark (runAMLProcessing completedStore
      (insertFails (clockAt (t0 + 10 * microsPerMinute)))).1 = some (t0 + 10 * microsPerMinute) ∧
    watermark (runAMLProcessing completedStore
      (insertFails (clockAt (t0 + 10 * microsPerMinute)))).1 ≠ watermark completedStore := by
  decide

/-! ## C6: the watermark over successive passes -/

/-- C6: over any sequence of passes run one after the other that all succeed, started at
non-decreasing `MERGE` times (the first pass may find no checkpoint row and insert it), the
value of `last_processed_timestamp` read after each pass is set and is at least the value
read after the previous pass. -/
theorem watermark_non_decreasing (db : Database) (ps : List PassInput)
    (hok : ∀ r ∈ passTrace db ps, r.2 = none)
    (htime : (ps.map (fun p => p.env.clock.mergeTime)).Chain' (· ≤ ·)) :
    ((passTrace db ps).map (fun r => watermark r.1)).Chain'
      (fun a b => ∃ x y, a = some x ∧ b = some y ∧ x ≤ y) := by
  rw [passTrace_watermarks ps db hok, List.chain'_map]
  rw [List.chain'_map] at htime
  exact htime.imp (fun _ _ h => ⟨_, _, rfl, rfl, h⟩)

/-- C6 at the fresh store (no checkpoint row) and two passes ten minutes apart. -/
theorem watermark_non_decreasing_witness :
    (∀ r ∈ passTrace freshStore twoPasses, r.2 = none) ∧
    (twoPasses.map (fun p => p.env.clock.mergeTime)).Chain' (· ≤ ·) ∧
    (passTrace freshStore twoPasses).map (fun r => watermark r.1)
      = [some (t0 + 10 * microsPerMinute), some (t0 + 20 * microsPerMinute)] ∧
    ((passTrace freshStore twoPasses).map (fun r => watermark r.1)).Chain'
      (fun a b => ∃ x y, a = some x ∧ b = some y ∧ x ≤ y) :=
  ⟨by decide, by simp [twoPasses, healthy, clockAt, microsPerMinute], by decide,
    watermark_non_decreasing freshStore twoPasses (by decide)
      (by simp [twoPasses, healthy, clockAt, microsPerMinute])⟩

/-! ## C7: growth after an empty baseline -/

/-- C7 at a failing input.  A monitor just created observes an empty table (the baseline is
0 rows); at the next observation the table holds 50 rows.  `checkForNewData` takes the
`lastRowCount == 0` branch again: it records 50 as the state, reports no error and does not
call `triggerAMLProcessing`. -/
theorem growth_from_empty_baseline_not_triggered :
    (checkForNewData NewAMLMonitor
      { getCurrentRowCount := .ok 0, getLastProcessedTime := .ok none,
        triggerAMLProcessing := none }).monitor.lastRowCount = 0 ∧
    triggered (checkForNewData
      (checkForNewData NewAMLMonitor
        { getCurrentRowCount := .ok 0, getLastProcessedTime := .ok none,
          triggerAMLProcessing := none }).monitor
      { getCurrentRowCount := .ok 50, getLastProcessedTime := .ok none,
        triggerAMLProcessing := none }) = false ∧
    (checkForNewData
      (checkForNewData NewAMLMonitor
        { getCurrentRowCount := .ok 0, getLastProcessedTime := .ok none,
          triggerAMLProcessing := none }).monitor
      { getCurrentRowCount := .ok 50, getLastProcessedTime := .ok none,
        triggerAMLProcessing := none }).events = [.initialState 50 none] ∧
    (checkForNewData
      (checkForNewData NewAMLMonitor
        { getCurrentRowCount := .ok 0, getLastProcessedTime := .ok none,
          triggerAMLProcessing := none }).monitor
      { getCurrentRowCount := .ok 50, getLastProcessedTime := .ok none,
        triggerAMLProcessing := none }).monitor.lastRowCount = 50 := by
  decide

/-! ## C8: the state update around a trigger -/

/-- C8 at a failing input.  A monitor just created records a baseline of 100 rows; its second
observation finds 0 rows, triggers a pass that succeeds, and sets `lastRowCount` to 0.  On
the third observation the table holds 7 rows and the pass would fail: `checkForNewData`
takes the `lastRowCount == 0` branch, calls no pass, and overwrites `lastRowCount` with 7,
so the fourth observation of 7 rows sees no change and retries nothing.  And an observation
of 0 rows, equal to `lastRowCount`, still overwrites `lastProcessed`. -/
theorem shrink_to_zero_breaks_retry :
    (checkForNewData NewAMLMonitor (tickOk 100)).events = [.initialState 100 none] ∧
    (checkForNewData NewAMLMonitor (tickOk 100)).monitor.lastRowCount = 100 ∧
    triggered (checkForNewData (checkForNewData NewAMLMonitor (tickOk 100)).monitor (tickOk 0))
      = true ∧
    afterShrinkToZero.lastRowCount = 0 ∧
    triggered (checkForNewData afterShrinkToZero (tickFailing 7)) = false ∧
    (checkForNewData afterShrinkToZero (tickFailing 7)).events = [.initialState 7 none] ∧
    (checkForNewData afterShrinkToZero (tickFailing 7)).monitor.lastRowCount = 7 ∧
    triggered (checkForNewData (checkForNewData afterShrinkToZero (tickFailing 7)).monitor
      (tickFailing 7)) = false ∧
    (checkForNewData (checkForNewData afterShrinkToZero (tickFailing 7)).monitor
      (tickFailing 7)).events = [.noNewData 7] ∧
    triggered (checkForNewData afterShrinkToZero
      { getCurrentRowCount := .ok 0, getLastProcessedTime := .ok (some t0),
        triggerAMLProcessing := none }) = false ∧
    (checkForNewData afterShrinkToZero
      { getCurrentRowCount := .ok 0, getLastProcessedTime := .ok (some t0),
        triggerAMLProcessing := none }).monitor ≠ afterShrinkToZero := by
  decide

/-! ## C9: the flagging threshold -/

/-- C9 (as amended): the detection query yields a row for customer `c` and day `d` exactly
when `d` is not earlier than the day before `CURRENT_DATE()` and, among the scanned events of
`c` taken in time order, at least 5 of those of day `d` have a gap of at most 5 whole minutes
to the event of `c` just before.  The first scanned event of a customer has no gap and is not
counted, so a flagged customer has at least 6 scanned events. -/
theorem flagged_iff_five_rapid_gaps (txs : List Transaction) (wm : Option Timestamp)
    (today : Date) (c : String) (d : Date) :
    ((∃ g ∈ rapid_transactions (velocity_data txs wm) today,
        g.customer_id = c ∧ g.transaction_date = d) ↔
      (today - 1 ≤ d ∧ 5 ≤ rapidGapCount (customerRows txs wm c) d)) ∧
    ((∃ g ∈ rapid_transactions (velocity_data txs wm) today,
        g.customer_id = c ∧ g.transaction_date = d) →
      6 ≤ ((newSince txs wm).filter (fun t => decide (customer_id t = c))).length) := by
  have key : (∃ g ∈ rapid_transactions (velocity_data txs wm) today,
        g.customer_id = c ∧ g.transaction_date = d) ↔
      (today - 1 ≤ d ∧ 5 ≤ rapidGapCount (customerRows txs wm c) d) := by
    rw [flagged_iff_group_size, groupRows_rapidWhere_length, velocity_data_of_customer]
    split
    · next h => simp [h]
    · next h => simp [h]
  refine ⟨key, fun hflag => ?_⟩
  have h5 := (key.mp hflag).2
  have := rapidGapCount_customerRows_lt txs wm c d (by omega)
  omega

/-- C9 (as stated) fails.  Five events of one customer one minute apart, all within the 24
hours before the processing time, are not flagged: they carry four gaps.  This is so for the
detection query alone and for a whole pass whose `INSERT` scans the five events.  And six such
events are flagged on the next calendar day although all of them are then more than 24 hours
old. -/
theorem five_events_not_flagged_and_window_is_by_date :
    (∀ t ∈ fiveInARow,
      t0 + 10 * microsPerMinute - microsPerDay < t.trans_date_trans_time ∧
      t.trans_date_trans_time ≤ t0 + 10 * microsPerMinute) ∧
    (customerRows fiveInARow none "A_B").map (fun r => r.minutes_since_last)
      = [none, some 1, some 1, some 1, some 1] ∧
    rapid_transactions (velocity_data fiveInARow none) (DATE (t0 + 10 * microsPerMinute)) = [] ∧
    newSince fiveStore.credit_card_transactions (some slowClock.mergeTime) = fiveInARow ∧
    (runAMLProcessing fiveStore (healthy slowClock)).2 = none ∧
    (runAMLProcessing fiveStore (healthy slowClock)).1.aml_alerts_level1 = [] ∧
    (∀ t ∈ sixInARow,
      t.trans_date_trans_time < t0 + 30 * 60 * microsPerMinute - microsPerDay) ∧
    (rapid_transactions (velocity_data sixInARow none)
      (DATE (t0 + 30 * 60 * microsPerMinute))).map
      (fun g => (g.customer_id, g.transaction_date, g.rapid_transaction_count))
      = [("A_B", DATE t0, 5)] := by
  decide

/-! ## C10: score and priority -/

/-- C10: the alerts a successful pass appends are, one for one, the flagged customer/day
groups of its detection query (in rank order), and the alert of a group with rapid count `c`
carries `risk_score = min (max (15 * c) 60) 100` and `priority` `HIGH` if `c >= 10`, `MEDIUM`
if `7 <= c < 10`, `LOW` otherwise. -/
theorem scoring_contract (db db2 : Database) (env : JobEnv)
    (h : runAMLProcessing db env = (db2, none)) :
    ∃ (groups : List RapidTransactions) (written : List Alert),
      groups.Perm (rapid_transactions
        (velocity_data db.credit_card_transactions (some env.clock.mergeTime))
        (DATE env.clock.insertTime)) ∧
      db2.aml_alerts_level1 = db.aml_alerts_level1 ++ written ∧
      written.map (fun a => (a.customer_id, a.alert_date, a.risk_score, a.priority))
        = groups.map (fun g => (g.customer_id, g.transaction_date,
            min (max (15 * g.rapid_transaction_count) 60) 100,
            if 10 ≤ g.rapid_transaction_count then "HIGH"
            else if 7 ≤ g.rapid_transaction_count ∧ g.rapid_transaction_count < 10 then "MEDIUM"
            else "LOW")) := by
  obtain ⟨-, hal, -⟩ := script_no_error_state (runAMLProcessing_no_error h)
  refine ⟨orderByCountDesc (rapid_transactions
      (velocity_data db.credit_card_transactions (some env.clock.mergeTime))
      (DATE env.clock.insertTime)), passAlerts db env.clock,
    List.perm_insertionSort _ _, hal, ?_⟩
  unfold passAlerts velocityAlerts
  rw [numberRows_scoring]
  apply List.map_congr_left
  intro g _
  rw [riskScore_eq, priorityOf_eq]

/-- C10 at a pass started ten minutes before six future-dated transactions one minute apart:
one alert, rapid count 5, score 75, priority `LOW`. -/
theorem scoring_contract_witness :
    runAMLProcessing freshStore (healthy (clockAt (t0 - 10 * microsPerMinute)))
      = (afterEarlyPass, none) ∧
    afterEarlyPass.aml_alerts_level1.map
      (fun a => (a.customer_id, a.alert_date, a.risk_score, a.priority))
      = [("A_B", DATE t0, 75, "LOW")] ∧
    ∃ (groups : List RapidTransactions) (written : List Alert),
      groups.Perm (rapid_transactions
        (velocity_data freshStore.credit_card_transactions
          (some (healthy (clockAt (t0 - 10 * microsPerMinute))).clock.mergeTime))
        (DATE (healthy (clockAt (t0 - 10 * microsPerMinute))).clock.insertTime)) ∧
      afterEarlyPass.aml_alerts_level1 = freshStore.aml_alerts_level1 ++ written ∧
      written.map (fun a => (a.customer_id, a.alert_date, a.risk_score, a.priority))
        = groups.map (fun g => (g.customer_id, g.transaction_date,
            min (max (15 * g.rapid_transaction_count) 60) 100,
            if 10 ≤ g.rapid_transaction_count then "HIGH"
            else if 7 ≤ g.rapid_transaction_count ∧ g.rapid_transaction_count < 10 then "MEDIUM"
            else "LOW")) :=
  ⟨by decide, by decide,
    scoring_contract freshStore afterEarlyPass (healthy (clockAt (t0 - 10 * microsPerMinute)))
      (by decide)⟩

/-! ## C11: six events at minute offsets 0, 2, 4, 5, 7, 9 -/

/-- C11 (as amended): when the events a detection scans for customer `c` are exactly six, at
minute offsets 0, 2, 4, 5, 7, 9 from `base`, all on one day that lies inside the detection
window, the detection yields exactly one row for `c`, with rapid count 5 (the first event has
no gap), and the alert written for `c` carries `risk_score = 75` and `priority = LOW`. -/
theorem scenario_six_events_count_five (txs : List Transaction) (wm : Option Timestamp)
    (today : Date) (c : String) (base : Timestamp) (existing : List Alert) (now : Timestamp)
    (hscan : (((newSince txs wm).filter (fun t => decide (customer_id t = c))).map
      (fun t => t.trans_date_trans_time)).Perm
        [base, base + 2 * microsPerMinute, base + 4 * microsPerMinute,
          base + 5 * microsPerMinute, base + 7 * microsPerMinute, base + 9 * microsPerMinute])
    (hday : DATE (base + 9 * microsPerMinute) = DATE base)
    (hwin : today - 1 ≤ DATE base) :
    ∃ g, (rapid_transactions (velocity_data txs wm) today).filter
        (fun g => decide (g.customer_id = c)) = [g] ∧
      g.customer_id = c ∧ g.transaction_date = DATE base ∧ g.rapid_transaction_count = 5 ∧
      ((velocityAlerts existing (rapid_transactions (velocity_data txs wm) today) now).filter
        (fun a => decide (a.customer_id = c))).map
          (fun a => (a.alert_date, a.risk_score, a.priority)) = [(DATE base, 75, "LOW")] := by
  have hm : (0 : Int) < microsPerMinute := by decide
  have hsorted : List.Sorted (· ≤ ·)
      [base, base + 2 * microsPerMinute, base + 4 * microsPerMinute,
        base + 5 * microsPerMinute, base + 7 * microsPerMinute,
        base + 9 * microsPerMinute] := by
    simp only [List.Sorted, List.pairwise_cons, List.mem_cons, List.mem_singleton,
      List.not_mem_nil, forall_eq_or_imp, forall_eq, List.Pairwise.nil, and_true,
      false_imp_iff, implies_true]
    refine ⟨⟨?_, ?_, ?_, ?_, ?_⟩, ⟨?_, ?_, ?_, ?_⟩, ⟨?_, ?_, ?_⟩, ⟨?_, ?_⟩, ?_⟩ <;> linarith
  have hcount : ∀ d, rapidGapCount (customerRows txs wm c) d
      = if d = DATE base then 5 else 0 := by
    intro d
    rw [rapidGapCount_customerRows_of_timestamps d hscan hsorted,
      rapidGapCount_scenario base d hday]
  obtain ⟨g, hg, hgc, hgd, hgn⟩ :=
    rapid_transactions_of_customer_one_day today c 5 hwin (Nat.le_refl 5)
      (by rw [hcount]; simp) (fun d2 hne => by rw [hcount]; simp [hne])
  refine ⟨g, hg, hgc, hgd, hgn, ?_⟩
  rw [velocityAlerts_of_customer_singleton hg, hgd, hgn]
  rfl

/-- The amended C11 at six events of customer `A_B` from `t0` on, no watermark set, the
processing date being the day of `t0`. -/
theorem scenario_six_events_count_five_witness :
    (((newSince scenarioA none).filter (fun t => decide (customer_id t = "A_B"))).map
      (fun t => t.trans_date_trans_time)).Perm
        [t0, t0 + 2 * microsPerMinute, t0 + 4 * microsPerMinute,
          t0 + 5 * microsPerMinute, t0 + 7 * microsPerMinute, t0 + 9 * microsPerMinute] ∧
    DATE (t0 + 9 * microsPerMinute) = DATE t0 ∧
    DATE t0 - 1 ≤ DATE t0 ∧
    ∃ g, (rapid_transactions (velocity_data scenarioA none) (DATE t0)).filter
        (fun g => decide (g.customer_id = "A_B")) = [g] ∧
      g.customer_id = "A_B" ∧ g.transaction_date = DATE t0 ∧ g.rapid_transaction_count = 5 ∧
      ((velocityAlerts [] (rapid_transactions (velocity_data scenarioA none) (DATE t0))
        t0).filter (fun a => decide (a.customer_id = "A_B"))).map
          (fun a => (a.alert_date, a.risk_score, a.priority)) = [(DATE t0, 75, "LOW")] :=
  ⟨List.Perm.of_eq (by decide), by decide, by decide,
    scenario_six_events_count_five scenarioA none (DATE t0) "A_B" t0 [] t0
      (List.Perm.of_eq (by decide)) (by decide) (by decide)⟩

/-- C11 (as stated) fails.  Six events of one customer at minute offsets 0, 2, 4, 5, 7, 9 of
one day inside the window give rapid count 5, score 75 and priority `LOW`, not 6, 90 and
`MEDIUM`: so for the detection query alone, and so for a whole pass that scans the six
events.  Even a rapid count of 6 has priority `LOW` under the `CASE` of the script. -/
theorem six_events_give_count_five_low :
    (rapid_transactions (velocity_data scenarioA none) (DATE t0)).map
      (fun g => (g.customer_id, g.transaction_date, g.rapid_transaction_count))
      = [("A_B", DATE t0, 5)] ∧
    (velocityAlerts [] (rapid_transactions (velocity_data scenarioA none) (DATE t0)) t0).map
      (fun a => (a.customer_id, a.risk_score, a.priority)) = [("A_B", 75, "LOW")] ∧
    newSince scenarioStore.credit_card_transactions (some slowClock.mergeTime) = scenarioA ∧
    (runAMLProcessing scenarioStore (healthy slowClock)).2 = none ∧
    (runAMLProcessing scenarioStore (healthy slowClock)).1.aml_alerts_level1.map
      (fun a => (a.customer_id, a.risk_score, a.priority, a.description))
      = [("A_B", 75, "LOW", "Rapid transactions detected: 5 transactions within 5 minutes")] ∧
    priorityOf 6 = "LOW" ∧ riskScore 6 = 90 := by
  decide

/-! ## C12: a record set processed in two passes -/

/-- C13: `checkForNewData` returns an error exactly when the row-count query fails; then it
has triggered no pass and the monitor state (`lastRowCount`, `lastProcessed`) is unchanged.
A failure to read the watermark alone gives no error: the call behaves as if the read had
returned the zero time, apart from the warning it prints first. -/
theorem observation_failure_policy (m : AMLMonitor) (env : Tick) :
    ((checkForNewData m env).err ≠ none ↔ ∃ e, env.getCurrentRowCount = .error e) ∧
    ((checkForNewData m env).err ≠ none →
      triggered (checkForNewData m env) = false ∧
      (checkForNewData m env).monitor.lastRowCount = m.lastRowCount ∧
      (checkForNewData m env).monitor.lastProcessed = m.lastProcessed ∧
      (checkForNewData m env).monitor = m) ∧
    (∀ e c, env.getLastProcessedTime = .error e → env.getCurrentRowCount = .ok c →
      (checkForNewData m env).err = none ∧
      (checkForNewData m env).monitor
        = (checkForNewData m { env with getLastProcessedTime := .ok none }).monitor ∧
      (checkForNewData m env).events
        = .warnNoLastProcessed ::
            (checkForNewData m { env with getLastProcessedTime := .ok none }).events) := by
  refine ⟨?_, ?_, ?_⟩
  · cases hc : env.getCurrentRowCount with
    | error e =>
      simp [checkForNewData, hc]
    | ok c =>
      simp only [checkForNewData, hc]
      split_ifs <;> (try cases env.triggerAMLProcessing) <;> simp
  · intro herr
    cases hc : env.getCurrentRowCount with
    | error e =>
      simp [checkForNewData, hc, triggered]
    | ok c =>
      exfalso
      apply herr
      simp only [checkForNewData, hc]
      split_ifs <;> (try cases env.triggerAMLProcessing) <;> rfl
  · intro e c hlp hc
    simp only [checkForNewData, hc, hlp, lastProcessedOrZero]
    split_ifs <;> (try cases env.triggerAMLProcessing) <;> simp

/-! ## C14: the scores a pass can write -/

/-- C14: every alert a call of `runAMLProcessing` appends comes from a rapid count `c` of at
least 5; its `risk_score` is `min (max (15 * c) 60) 100` where the floor 60 does not bind
(`15 * c >= 75`), so it lies in `[75, 100]`; and an alert whose priority is `MEDIUM` or `HIGH`
has `risk_score = 100`. -/
theorem reachable_scores (db : Database) (env : JobEnv) :
    ∃ written : List Alert,
      (runAMLProcessing db env).1.aml_alerts_level1 = db.aml_alerts_level1 ++ written ∧
      ∀ a ∈ written,
        (∃ c : Int, 5 ≤ c ∧ max (15 * c) 60 = 15 * c ∧
          a.risk_score = min (max (15 * c) 60) 100 ∧
          a.priority = (if 10 ≤ c then "HIGH" else if 7 ≤ c then "MEDIUM" else "LOW")) ∧
        75 ≤ a.risk_score ∧ a.risk_score ≤ 100 ∧
        ((a.priority = "MEDIUM" ∨ a.priority = "HIGH") → a.risk_score = 100) := by
  rcases runAMLProcessing_alerts db env with h | h
  · exact ⟨[], by rw [h, List.append_nil], fun a ha => by cases ha⟩
  · refine ⟨passAlerts db env.clock, h, ?_⟩
    intro a ha
    obtain ⟨c, hc, hs, hp⟩ := passAlerts_mem ha
    rw [riskScore_eq] at hs
    refine ⟨⟨c, hc, by omega, hs, hp⟩, by omega, by omega, ?_⟩
    intro hprio
    rw [hp] at hprio
    have := priorityOf_medium_or_high hprio
    omega

/-! ## C15: thousands grouping -/

/-- C15: for `n >= 0`, `formatNumber n` is the decimal digits of `n` cut from the right into
groups of three, the groups joined by commas: a first group of 1 to 3 digits, then groups of
exactly 3 digits each preceded by a comma.  The digits hold no comma, so deleting the commas
gives back the decimal representation of `n`. -/
theorem formatNumber_groups_of_three (n : Int) (hn : 0 ≤ n) :
    ∃ (first : List Char) (rest : List (List Char)),
      Nat.toDigits 10 n.toNat = first ++ rest.flatten ∧
      1 ≤ first.length ∧ first.length ≤ 3 ∧ (∀ g ∈ rest, g.length = 3) ∧
      (formatNumber n).data = first ++ rest.flatMap (fun g => ',' :: g) ∧
      (∀ c ∈ Nat.toDigits 10 n.toNat, c.isDigit = true) ∧
      (formatNumber n).data.filter (fun c => decide (c ≠ ',')) = Nat.toDigits 10 n.toNat ∧
      String.mk (Nat.toDigits 10 n.toNat) = toString n.toNat := by
  have hdig := toDigits_isDigit n.toNat
  have key : ∃ (first : List Char) (rest : List (List Char)),
      Nat.toDigits 10 n.toNat = first ++ rest.flatten ∧
      1 ≤ first.length ∧ first.length ≤ 3 ∧ (∀ g ∈ rest, g.length = 3) ∧
      (formatNumber n).data = first ++ rest.flatMap (fun g => ',' :: g) := by
    unfold formatNumber
    rw [FormatInt_of_nonneg hn]
    split
    · next h3 =>
      exact ⟨Nat.toDigits 10 n.toNat, [], by simp, toDigits_length_pos _, h3,
        fun _ h => (by cases h), by simp⟩
    · exact formatLoop_first_group _ (toDigits_length_pos _)
  obtain ⟨first, rest, hsplit, h1, h3, hall, hout⟩ := key
  refine ⟨first, rest, hsplit, h1, h3, hall, hout, hdig, ?_, rfl⟩
  rw [hout, hsplit]
  apply filter_commas_groups
  · intro c hc
    exact isDigit_ne_comma (hdig c (by rw [hsplit]; exact List.mem_append_left _ hc))
  · intro g hg c hc
    refine isDigit_ne_comma (hdig c ?_)
    rw [hsplit]
    exact List.mem_append_right _ (List.mem_flatten.mpr ⟨g, hg, hc⟩)

/-- C15 at 1,000,050 and at 999. -/
theorem formatNumber_groups_of_three_witness :
    (0 : Int) ≤ 1000050 ∧ formatNumber 1000050 = "1,000,050" ∧ formatNumber 999 = "999" ∧
    ∃ (first : List Char) (rest : List (List Char)),
      Nat.toDigits 10 (1000050 : Int).toNat = first ++ rest.flatten ∧
      1 ≤ first.length ∧ first.length ≤ 3 ∧ (∀ g ∈ rest, g.length = 3) ∧
      (formatNumber 1000050).data = first ++ rest.flatMap (fun g => ',' :: g) ∧
      (∀ c ∈ Nat.toDigits 10 (1000050 : Int).toNat, c.isDigit = true) ∧
      (formatNumber 1000050).data.filter (fun c => decide (c ≠ ','))
        = Nat.toDigits 10 (1000050 : Int).toNat ∧
      String.mk (Nat.toDigits 10 (1000050 : Int).toNat) = toString (1000050 : Int).toNat :=
  ⟨by decide, by decide, by decide, formatNumber_groups_of_three 1000050 (by decide)⟩

end AML
